import Mathlib

/-!
# Crane: container lifecycle translation

A shallow embedding of `container.go` and the process executor of `main.go`.

* Go strings are Lean `String`s; `strings.Split` with a one-character separator and
  `strings.Join` are modelled on the underlying character lists.
* Everything outside the repository (process environment, working directory, the JSON
  decoder, the container runtime answering the spawned processes) is a `Runtime` value.
  The answer of a spawned process may depend on every invocation issued before it.
* Effectful code is a function `World → Result α × World`; the `World` records the
  process invocations issued so far and the console output. A Go `panic` is
  `Result.panic`, and the world reached at the moment of the panic is kept.
-/

namespace Crane

/-! ## Strings -/

/-- Splitting a character list at every occurrence of `sep`; the result is never empty. -/
def splitChars (sep : Char) : List Char → List (List Char)
  | [] => [[]]
  | c :: cs =>
    if c = sep then [] :: splitChars sep cs
    else match splitChars sep cs with
      | [] => [[c]]
      | h :: t => (c :: h) :: t

/-- Go `strings.Split(s, sep)` for a separator of one character. -/
def Split (s : String) (sep : Char) : List String :=
  (splitChars sep s.data).map String.mk

/-- Go `strings.Join(elems, sep)`. -/
def Join : List String → String → String
  | [], _ => ""
  | [a], _ => a
  | a :: b :: t, sep => a ++ sep ++ Join (b :: t) sep

/-- Go `path.IsAbs`: the path is non-empty and starts with a slash. -/
def IsAbs (p : String) : Bool :=
  match p.data with
  | [] => false
  | c :: _ => c == '/'

/-- Go `strconv.Itoa`. -/
def Itoa (n : Int) : String := toString n

/-! ## Data model -/

/-- A dynamically typed value, as the configuration decoder stores it in an
`interface{}` field; `null` is the nil interface. -/
inductive Value where
  | null
  | bool (b : Bool)
  | num (n : Int)
  | str (s : String)
  | seq (vs : List Value)

structure RunParameters where
  RawAddHost : List String := []
  RawOther : List String := []
  Cidfile : String := ""
  CpuShares : Int := 0
  Detach : Bool := false
  Dns : List String := []
  Entrypoint : String := ""
  Env : List String := []
  Expose : List String := []
  Hostname : String := ""
  Interactive : Bool := false
  Link : List String := []
  LxcConf : List String := []
  MappedVolumesFrom : List String := []
  Memory : String := ""
  RawNet : String := ""
  Privileged : Bool := false
  Publish : List String := []
  PublishAll : Bool := false
  Rm : Bool := false
  Tty : Bool := false
  User : String := ""
  Volume : List String := []
  VolumesFrom : List String := []
  Workdir : String := ""
  Command : Value := Value.null

structure Container where
  Id : String := ""
  Name : String := ""
  Dockerfile : String := ""
  Image : String := ""
  Manual : Bool := false
  Run : RunParameters := {}

structure Mount where
  Source : String
  Destination : String
  Mode : String := ""
  RW : Bool := false
deriving DecidableEq

/-! ## The outside world -/

/-- A process invocation, by the executor function of `main.go` that issued it. -/
inductive Invocation where
  | executeCommand (name : String) (args : List String)
  | commandOutput (name : String) (args : List String)
  | pipedCommandOutput (cmds : List (List String))
deriving DecidableEq

/-- A line of console output: `fmt.Printf`, `print.Notice` or `print.Error`. The `print`
package is not part of the translated sources; it is the coloured console output, so a
call appends a message and returns. -/
inductive Console where
  | printf (s : String)
  | notice (s : String)
  | error (s : String)
deriving DecidableEq

/-- The reasons for which the translated code panics. -/
inductive Fatal where
  /-- Go `executeCommand`: the process did not finish successfully. -/
  | processFailed (name : String) (args : List String)
  /-- An index expression out of range. -/
  | indexOutOfRange
  /-- The type assertion `v.(string)` on a value that is not a string. -/
  | typeAssertion
  /-- The mounts query of `getSourceForVolumeFromMounts` failed. -/
  | cannotGetMounts (source volume : String)
  /-- The answer of the mounts query could not be decoded. -/
  | cannotParseMounts (output : String)
  /-- No mount has the requested destination. -/
  | cannotFindMount (volume output : String)
  /-- No entry of the legacy volume map has the requested container path. -/
  | cannotFindVolume (volume output : String)
deriving DecidableEq

/-- Everything the translated code reads from outside the repository. The three process
fields answer an invocation given the invocations issued before it. -/
structure Runtime where
  /-- Go `os.ExpandEnv` in the environment of the process. -/
  ExpandEnv : String → String
  /-- Go `os.Getwd`. -/
  Getwd : String
  /-- Go `json.Unmarshal` into `Mounts`; `none` is a decoding error. -/
  unmarshalMounts : String → Option (List Mount)
  /-- The result of `isManualTargetting()`, which is declared outside the translated
  sources. -/
  isManualTargetting : Bool
  /-- The global `verbose` flag. -/
  verbose : Bool
  /-- Go `commandOutput`: the trimmed combined output, and whether the error is non-nil. -/
  commandOutput : List Invocation → String → List String → String × Bool
  /-- Go `pipedCommandOutput`: the output of the last stage, `none` for a non-nil error. -/
  pipedCommandOutput : List Invocation → List (List String) → Option String
  /-- Go `executeCommand`: whether the process finished successfully. -/
  executeCommand : List Invocation → String → List String → Bool

structure World where
  /-- Process invocations issued so far, oldest first. -/
  trace : List Invocation := []
  /-- Console output so far, oldest first. -/
  console : List Console := []
deriving DecidableEq

inductive Result (α : Type) where
  | ok (a : α)
  | panic (f : Fatal)
deriving DecidableEq

/-- An effectful computation of the translated program. -/
def Prog (α : Type) : Type := World → Result α × World

def Prog.pure {α : Type} (a : α) : Prog α := fun w => (Result.ok a, w)

def Prog.bind {α β : Type} (x : Prog α) (f : α → Prog β) : Prog β := fun w =>
  match x w with
  | (Result.ok a, w1) => f a w1
  | (Result.panic e, w1) => (Result.panic e, w1)

instance : Monad Prog where
  pure := Prog.pure
  bind := Prog.bind

/-- Go `panic`. -/
def throwFatal {α : Type} (e : Fatal) : Prog α := fun w => (Result.panic e, w)

/-- Console output. -/
def say (m : Console) : Prog Unit := fun w =>
  (Result.ok (), { w with console := w.console ++ [m] })

/-- A pure computation that may panic, run inside `Prog`. -/
def liftExcept {α : Type} : Except Fatal α → Prog α
  | Except.ok a => Prog.pure a
  | Except.error e => throwFatal e

/-- The executor invocations of a trace that change the runtime: `executeCommand`. -/
def mutating (t : List Invocation) : List Invocation :=
  t.filter fun i => match i with
    | Invocation.executeCommand _ _ => true
    | _ => false

/-! ## Process executor (`main.go`) -/

/-- Go `executeCommand`: announces the command when `verbose`, runs it with inherited
standard streams, and panics unless it finished successfully. -/
def executeCommand (rt : Runtime) (name : String) (args : List String) : Prog Unit := fun w =>
  let w1 : World :=
    if rt.verbose then
      { w with console := w.console ++
          [Console.printf ("\n--> " ++ name ++ " " ++ Join args " " ++ "\n")] }
    else w
  let w2 : World := { w1 with trace := w1.trace ++ [Invocation.executeCommand name args] }
  if rt.executeCommand w.trace name args then (Result.ok (), w2)
  else (Result.panic (Fatal.processFailed name args), w2)

/-- Go `commandOutput`: the trimmed combined output and whether the error is non-nil. -/
def commandOutput (rt : Runtime) (name : String) (args : List String) : Prog (String × Bool) :=
  fun w =>
    (Result.ok (rt.commandOutput w.trace name args),
      { w with trace := w.trace ++ [Invocation.commandOutput name args] })

/-- Go `pipedCommandOutput`: the output of the last stage, `none` for a non-nil error. -/
def pipedCommandOutput (rt : Runtime) (cmds : List (List String)) : Prog (Option String) :=
  fun w =>
    (Result.ok (rt.pipedCommandOutput w.trace cmds),
      { w with trace := w.trace ++ [Invocation.pipedCommandOutput cmds] })

/-! ## Run parameters (`container.go`) -/

/-- Go `RunParameters.AddHost`. -/
def RunParameters.AddHost (rt : Runtime) (r : RunParameters) : List String :=
  r.RawAddHost.foldl (fun addHost rawAddHost => addHost ++ [rt.ExpandEnv rawAddHost]) []

/-- Go `RunParameters.Other`. -/
def RunParameters.Other (rt : Runtime) (r : RunParameters) : List String :=
  r.RawOther.foldl (fun other rawOther => other ++ [rt.ExpandEnv rawOther]) []

/-- Go `RunParameters.Net`: the network mode, `bridge` by default. -/
def RunParameters.Net (rt : Runtime) (r : RunParameters) : String :=
  if r.RawNet.length = 0 then "bridge" else rt.ExpandEnv r.RawNet

/-! ## Runtime inspector -/

/-- The loop of `getId` over the `|`-separated segments: the first segment that is not
the sentinel, if any. -/
def firstId : List String → Option String
  | [] => none
  | possible_id :: ids => if possible_id ≠ "<no value>" then some possible_id else firstId ids

/-- Go `Container.getId`. Returns the id, whether the error is non-nil, and the container
with its `Id` cache as the call leaves it. The test `err == nil` reads the named result
`err`, which nothing has assigned yet, and not `outErr`. -/
def Container.getId (rt : Runtime) (container : Container) :
    Prog (String × Bool × Container) := do
  let id : String := ""
  let err : Bool := false
  if 0 < container.Id.length then
    return (container.Id, err, container)
  else
    let args := ["inspect", "--format=\x7b\x7b.Id\x7d\x7d", container.Name]
    let (output, outErr) ← commandOutput rt "docker" args
    if err = false then
      match firstId (Split output '|') with
      | some possible_id => return (possible_id, err, { container with Id := possible_id })
      | none => return (id, err, container)
    else
      return (id, outErr, container)

/-- Go `Container.exists`, with the container as the call leaves it. -/
def Container.exists (rt : Runtime) (container : Container) : Prog (Bool × Container) := do
  let (id, err, container) ← container.getId rt
  if err || id.length = 0 then
    return (false, container)
  let dockerCmd := ["docker", "ps", "--quiet", "--all", "--no-trunc"]
  let grepCmd := ["grep", "-wF", id]
  match ← pipedCommandOutput rt [dockerCmd, grepCmd] with
  | none => return (false, container)
  | some result => return (decide (0 < result.length), container)

/-- Go `Container.running`, with the container as the call leaves it. -/
def Container.running (rt : Runtime) (container : Container) : Prog (Bool × Container) := do
  let (id, err, container) ← container.getId rt
  if err || id.length = 0 then
    return (false, container)
  let dockerCmd := ["docker", "ps", "--quiet", "--no-trunc"]
  let grepCmd := ["grep", "-wF", id]
  match ← pipedCommandOutput rt [dockerCmd, grepCmd] with
  | none => return (false, container)
  | some result => return (decide (0 < result.length), container)

/-- Go `Container.imageExists`. -/
def Container.imageExists (rt : Runtime) (container : Container) : Prog Bool := do
  let dockerCmd := ["docker", "images", "--no-trunc"]
  let grepCmd := ["grep", "-wF", container.Image]
  match ← pipedCommandOutput rt [dockerCmd, grepCmd] with
  | none => return false
  | some result => return decide (0 < result.length)

/-! ## Images -/

/-- Go `Container.pullImage`. -/
def Container.pullImage (rt : Runtime) (container : Container) : Prog Unit := do
  say (Console.printf ("Pulling image " ++ container.Image ++ " ... "))
  let args := ["pull", container.Image]
  executeCommand rt "docker" args

/-- Go `Container.buildImage`. -/
def Container.buildImage (rt : Runtime) (container : Container) : Prog Unit := do
  say (Console.printf ("Building image " ++ container.Image ++ " ... "))
  let args := ["build", "--rm", "--tag=" ++ container.Image, rt.ExpandEnv container.Dockerfile]
  executeCommand rt "docker" args

/-- The condition `force || !container.imageExists()` of `provision` and `pull`: the
image probe runs only when `force` is false. -/
def Container.forceOrMissing (rt : Runtime) (container : Container) (force : Bool) :
    Prog Bool := do
  if force then
    return true
  else
    let imageExists ← container.imageExists rt
    return !imageExists

/-- Go `Container.provision`. -/
def Container.provision (rt : Runtime) (container : Container) (force : Bool) : Prog Unit := do
  if ← container.forceOrMissing rt force then
    if 0 < container.Dockerfile.length then
      container.buildImage rt
    else
      container.pullImage rt
  else
    say (Console.notice
      ("Image " ++ container.Image ++ " does already exist. Use --force to recreate.\n"))

/-- Go `Container.pull`. -/
def Container.pull (rt : Runtime) (container : Container) (force : Bool) : Prog Unit := do
  if ← container.forceOrMissing rt force then
    container.pullImage rt
  else
    say (Console.notice
      ("Image " ++ container.Image ++ " does already exist. Use --force to re-pull.\n"))

/-! ## Volume source resolver -/

/-- A match of the regular expression `map[[](.*)[]]$` that starts at the head of the
text: the text is `map[`, then a run without a line break (the capture group), then `]`
at the very end. -/
def matchInnerHere : List Char → Option (List Char)
  | 'm' :: 'a' :: 'p' :: '[' :: rest =>
    if rest.getLast? = some ']' ∧ '\n' ∉ rest.dropLast then some rest.dropLast else none
  | _ => none

/-- Go `inner_part_regex.FindStringSubmatch(output)`, reduced to its capture group: the
match that starts leftmost; `none` when the expression matches nowhere. -/
def findInner : List Char → Option (List Char)
  | [] => none
  | c :: cs =>
    match matchInnerHere (c :: cs) with
    | some inner => some inner
    | none => findInner cs

/-- The loop of `getSourceForVolumeFromVolumes` over the space-separated entries. -/
def scanVolumes (output volume : String) : List String → Except Fatal String
  | [] => Except.error (Fatal.cannotFindVolume volume output)
  | vol_map :: rest =>
    match Split vol_map ':' with
    | container_path :: host_path :: _ =>
      if container_path = volume then Except.ok host_path
      else scanVolumes output volume rest
    | _ => Except.error Fatal.indexOutOfRange

/-- Go `getSourceForVolumeFromVolumes`; it spawns no process. -/
def getSourceForVolumeFromVolumes (output volume : String) : Except Fatal String :=
  match findInner output.data with
  | none => Except.error Fatal.indexOutOfRange
  | some inner => scanVolumes output volume (Split (String.mk inner) ' ')

/-- The loop of `getSourceForVolumeFromMounts` over the decoded mounts. -/
def scanMounts (output volume : String) : List Mount → Except Fatal String
  | [] => Except.error (Fatal.cannotFindMount volume output)
  | mount :: rest =>
    if mount.Destination = volume then Except.ok mount.Source
    else scanMounts output volume rest

/-- Go `getSourceForVolumeFromMounts`. -/
def getSourceForVolumeFromMounts (rt : Runtime) (source volume : String) : Prog String := do
  let args := ["inspect", "--format=\x7b\x7bjson .Mounts\x7d\x7d", source]
  let (output, err) ← commandOutput rt "docker" args
  if err then
    throwFatal (Fatal.cannotGetMounts source volume)
  else
    match rt.unmarshalMounts output with
    | none => throwFatal (Fatal.cannotParseMounts output)
    | some mounts => liftExcept (scanMounts output volume mounts)

/-- Go `getSourceForVolume`. -/
def getSourceForVolume (rt : Runtime) (source volume : String) : Prog String := do
  let args := ["inspect", "--format=\x7b\x7b.Volumes\x7d\x7d", source]
  let (output, err) ← commandOutput rt "docker" args
  if err || output = "<no value>" then
    getSourceForVolumeFromMounts rt source volume
  else
    liftExcept (getSourceForVolumeFromVolumes output volume)

/-! ## Run-argument assembly -/

/-- The `MappedVolumesFrom` loop of `Container.run`, appending to `args`. -/
def appendMappedVolumes (rt : Runtime) : List String → List String → Prog (List String)
  | args, [] => Prog.pure args
  | args, mappedVolumesFrom :: rest =>
    match Split (rt.ExpandEnv mappedVolumesFrom) ':' with
    | source :: volume :: dest :: _ =>
      Prog.bind (getSourceForVolume rt source volume) fun src_volume_dir =>
        let vol_map := Join [src_volume_dir, dest] ":"
        appendMappedVolumes rt (args ++ ["--volume", vol_map]) rest
    | _ => throwFatal Fatal.indexOutOfRange

/-- The body of the `Volume` loop of `Container.run`: the emitted `--volume` value. -/
def volumeArg (rt : Runtime) (volume : String) : String :=
  match Split (rt.ExpandEnv volume) ':' with
  | [] => ""
  | p0 :: ps =>
    let paths := if !IsAbs p0 then (rt.Getwd ++ "/" ++ p0) :: ps else p0 :: ps
    Join paths ":"

/-- The loop `cmds[i] = v.(string)` of `Container.run`. -/
def commandStrings : List Value → Except Fatal (List String)
  | [] => Except.ok []
  | Value.str s :: vs =>
    match commandStrings vs with
    | Except.ok cmds => Except.ok (s :: cmds)
    | Except.error e => Except.error e
  | _ :: _ => Except.error Fatal.typeAssertion

/-- The `Command` switch of `Container.run`, appending to `args`. -/
def appendCommand (args : List String) : Value → Prog (List String)
  | Value.null => Prog.pure args
  | Value.str cmd => Prog.pure (if 0 < cmd.length then args ++ [cmd] else args)
  | Value.seq cmd =>
    Prog.bind (liftExcept (commandStrings cmd)) fun cmds => Prog.pure (args ++ cmds)
  | _ => Prog.bind (say (Console.error "cmd is of unknown type!")) fun _ => Prog.pure args

/-- The argument assembly of `Container.run`: the statements of its `else` branch from
`args := []string{"run"}` up to the call of `executeCommand`. -/
def Container.runArgs (rt : Runtime) (container : Container) : Prog (List String) := do
  let args := ["run"]
  let args := (container.Run.AddHost rt).foldl
    (fun args addHost => args ++ ["--add-host", addHost]) args
  let args := if container.Run.Net rt ≠ "bridge" then
    args ++ ["--net", container.Run.Net rt] else args
  let args := (container.Run.Other rt).foldl (fun args other => args ++ [other]) args
  let args := if 0 < container.Run.Cidfile.length then
    args ++ ["--cidfile", rt.ExpandEnv container.Run.Cidfile] else args
  let args := if 0 < container.Run.CpuShares then
    args ++ ["--cpu-shares", rt.ExpandEnv (Itoa container.Run.CpuShares)] else args
  let args := if container.Run.Detach then args ++ ["--detach"] else args
  let args := container.Run.Dns.foldl (fun args dns => args ++ ["--dns", rt.ExpandEnv dns]) args
  let args := if 0 < container.Run.Entrypoint.length then
    args ++ ["--entrypoint", rt.ExpandEnv container.Run.Entrypoint] else args
  let args := container.Run.Env.foldl (fun args env => args ++ ["--env", rt.ExpandEnv env]) args
  let args := container.Run.Expose.foldl
    (fun args expose => args ++ ["--expose", rt.ExpandEnv expose]) args
  let args := if 0 < container.Run.Hostname.length then
    args ++ ["--hostname", rt.ExpandEnv container.Run.Hostname] else args
  let args := if container.Run.Interactive then args ++ ["--interactive"] else args
  let args := container.Run.Link.foldl (fun args link => args ++ ["--link", link]) args
  let args := container.Run.LxcConf.foldl
    (fun args lxcConf => args ++ ["--lxc-conf", rt.ExpandEnv lxcConf]) args
  let args ← appendMappedVolumes rt args container.Run.MappedVolumesFrom
  let args := if 0 < container.Run.Memory.length then
    args ++ ["--memory", rt.ExpandEnv container.Run.Memory] else args
  let args := if container.Run.Privileged then args ++ ["--privileged"] else args
  let args := container.Run.Publish.foldl
    (fun args port => args ++ ["--publish", rt.ExpandEnv port]) args
  let args := if container.Run.PublishAll then args ++ ["--publish-all"] else args
  let args := if container.Run.Rm then args ++ ["--rm"] else args
  let args := if container.Run.Tty then args ++ ["--tty"] else args
  let args := if 0 < container.Run.User.length then
    args ++ ["--user", rt.ExpandEnv container.Run.User] else args
  let args := container.Run.Volume.foldl
    (fun args volume => args ++ ["--volume", volumeArg rt volume]) args
  let args := container.Run.VolumesFrom.foldl
    (fun args volumeFrom => args ++ ["--volumes-from", rt.ExpandEnv volumeFrom]) args
  let args := if 0 < container.Run.Workdir.length then
    args ++ ["--workdir", rt.ExpandEnv container.Run.Workdir] else args
  let args := args ++ ["--name", container.Name]
  let args := args ++ [container.Image]
  appendCommand args container.Run.Command

/-! ## Container lifecycle -/

/-- Go `Container.start`. -/
def Container.start (rt : Runtime) (container : Container) : Prog Unit := do
  if !rt.isManualTargetting && container.Manual then
    return ()
  let (ex, container) ← container.exists rt
  if ex then
    let (r, container) ← container.running rt
    if !r then
      say (Console.printf ("Starting container " ++ container.Name ++ " ... "))
      let args := ["start", container.Name]
      executeCommand rt "docker" args
  else
    say (Console.error ("Container " ++ container.Name ++ " does not exist.\n"))

/-- Go `Container.run`. -/
def Container.run (rt : Runtime) (container : Container) : Prog Unit := do
  if !rt.isManualTargetting && container.Manual then
    return ()
  let (ex, container) ← container.exists rt
  if ex then
    say (Console.notice
      ("Container " ++ container.Name ++ " does already exist. Use --force to recreate.\n"))
    let (r, container) ← container.running rt
    if !r then
      container.start rt
  else
    say (Console.printf ("Running container " ++ container.Name ++ " ... "))
    let args ← container.runArgs rt
    executeCommand rt "docker" args

/-- Go `Container.runOrStart`. -/
def Container.runOrStart (rt : Runtime) (container : Container) : Prog Unit := do
  let (ex, container) ← container.exists rt
  if ex then
    container.start rt
  else
    container.run rt

/-- Go `Container.kill`. -/
def Container.kill (rt : Runtime) (container : Container) : Prog Unit := do
  let (r, container) ← container.running rt
  if r then
    say (Console.printf ("Killing container " ++ container.Name ++ " ... "))
    let args := ["kill", container.Name]
    executeCommand rt "docker" args

/-- Go `Container.stop`. -/
def Container.stop (rt : Runtime) (container : Container) : Prog Unit := do
  let (r, container) ← container.running rt
  if r then
    say (Console.printf ("Stopping container " ++ container.Name ++ " ... "))
    let args := ["stop", container.Name]
    executeCommand rt "docker" args

/-- Go `Container.rm`. -/
def Container.rm (rt : Runtime) (container : Container) : Prog Unit := do
  let (ex, container) ← container.exists rt
  if ex then
    let (r, container) ← container.running rt
    if r then
      say (Console.error
        ("Container " ++ container.Name ++ " is running and cannot be removed.\n"))
    else
      say (Console.printf ("Removing container " ++ container.Name ++ " ... "))
      let args := ["rm", container.Name]
      executeCommand rt "docker" args

/-! ## Decomposition of the assembled arguments

What `Container.runArgs` emits, written as one expression per group of fields. These
definitions are compared with the translated code in `runArgs_eq`. -/

/-- The flag arguments emitted before the mapped volumes. -/
def flagsBeforeMapped (rt : Runtime) (r : RunParameters) : List String :=
  (r.RawAddHost.flatMap fun e => ["--add-host", rt.ExpandEnv e]) ++
  (if r.Net rt ≠ "bridge" then ["--net", r.Net rt] else []) ++
  r.RawOther.map rt.ExpandEnv ++
  (if 0 < r.Cidfile.length then ["--cidfile", rt.ExpandEnv r.Cidfile] else []) ++
  (if 0 < r.CpuShares then ["--cpu-shares", rt.ExpandEnv (Itoa r.CpuShares)] else []) ++
  (if r.Detach then ["--detach"] else []) ++
  (r.Dns.flatMap fun e => ["--dns", rt.ExpandEnv e]) ++
  (if 0 < r.Entrypoint.length then ["--entrypoint", rt.ExpandEnv r.Entrypoint] else []) ++
  (r.Env.flatMap fun e => ["--env", rt.ExpandEnv e]) ++
  (r.Expose.flatMap fun e => ["--expose", rt.ExpandEnv e]) ++
  (if 0 < r.Hostname.length then ["--hostname", rt.ExpandEnv r.Hostname] else []) ++
  (if r.Interactive then ["--interactive"] else []) ++
  (r.Link.flatMap fun e => ["--link", e]) ++
  (r.LxcConf.flatMap fun e => ["--lxc-conf", rt.ExpandEnv e])

/-- The flag arguments emitted after the mapped volumes. -/
def flagsAfterMapped (rt : Runtime) (r : RunParameters) : List String :=
  (if 0 < r.Memory.length then ["--memory", rt.ExpandEnv r.Memory] else []) ++
  (if r.Privileged then ["--privileged"] else []) ++
  (r.Publish.flatMap fun e => ["--publish", rt.ExpandEnv e]) ++
  (if r.PublishAll then ["--publish-all"] else []) ++
  (if r.Rm then ["--rm"] else []) ++
  (if r.Tty then ["--tty"] else []) ++
  (if 0 < r.User.length then ["--user", rt.ExpandEnv r.User] else []) ++
  (r.Volume.flatMap fun e => ["--volume", volumeArg rt e]) ++
  (r.VolumesFrom.flatMap fun e => ["--volumes-from", rt.ExpandEnv e]) ++
  (if 0 < r.Workdir.length then ["--workdir", rt.ExpandEnv r.Workdir] else [])

/-- The tokens that follow the image, as a function of `Command` alone. -/
def commandTokens : Value → List String
  | Value.str cmd => if 0 < cmd.length then [cmd] else []
  | Value.seq cmd =>
    match commandStrings cmd with
    | Except.ok cmds => cmds
    | Except.error _ => []
  | _ => []

/-- The run parameters with the `Command` field erased. -/
def RunParameters.withoutCommand (r : RunParameters) : RunParameters :=
  { r with Command := Value.null }

/-! ## Sample runtimes

Concrete runtimes on which the translated code is evaluated. -/

/-- Go `isShellSpecialVar` of package `os`. -/
def isShellSpecialVar (c : Char) : Bool :=
  c ∈ ['*', '#', '$', '@', '!', '?', '-', '0', '1', '2', '3', '4', '5', '6', '7', '8', '9']

/-- Go `isAlphaNum` of package `os`. -/
def isAlphaNum (c : Char) : Bool :=
  c == '_' || ('0' ≤ c && c ≤ '9') || ('a' ≤ c && c ≤ 'z') || ('A' ≤ c && c ≤ 'Z')

/-- The scan of Go `getShellName` for the closing brace, on the text after `{`. -/
def scanBrace (rest : List Char) : List Char × Nat :=
  match rest.span (fun c => c != '}') with
  | (_, []) => ([], 1)
  | ([], _ :: _) => ([], 2)
  | (name, _ :: _) => (name, name.length + 2)

/-- Go `getShellName` of package `os`, on the text after a dollar sign: the variable name
and the number of characters it takes up. -/
def getShellName : List Char → List Char × Nat
  | [] => ([], 0)
  | '{' :: rest =>
    match rest with
    | c :: '}' :: _ => if isShellSpecialVar c then ([c], 3) else scanBrace rest
    | _ => scanBrace rest
  | c :: rest =>
    if isShellSpecialVar c then ([c], 1)
    else ((c :: rest).takeWhile isAlphaNum, ((c :: rest).takeWhile isAlphaNum).length)

/-- The loop of Go `os.Expand`; the first argument counts the characters still to skip. -/
def expandFrom (mapping : String → String) : Nat → List Char → List Char
  | _, [] => []
  | skip + 1, _ :: cs => expandFrom mapping skip cs
  | 0, c :: cs =>
    if c = '$' ∧ cs ≠ [] then
      let nw := getShellName cs
      let out : List Char :=
        if nw.1 = [] ∧ 0 < nw.2 then []
        else if nw.1 = [] then ['$']
        else (mapping (String.mk nw.1)).data
      out ++ expandFrom mapping nw.2 cs
    else c :: expandFrom mapping 0 cs

/-- Go `os.Expand`. -/
def osExpand (s : String) (mapping : String → String) : String :=
  String.mk (expandFrom mapping 0 s.data)

/-- Go `os.Getenv` in an environment given as a list of bindings. -/
def lookupEnv (env : List (String × String)) (key : String) : String :=
  (env.lookup key).getD ""

/-- The `--name` argument of a `docker run` argument list. -/
def nameOfRun : List String → Option String
  | [] => none
  | [_] => none
  | a :: b :: rest => if a = "--name" then some b else nameOfRun (b :: rest)

/-- How one invocation changes the state of the container `name` in the simulated
runtime: `none` is absent, `some true` running, `some false` stopped. -/
def simStep (name : String) (st : Option Bool) : Invocation → Option Bool
  | Invocation.executeCommand _ ("run" :: args) =>
    if nameOfRun args = some name then some true else st
  | Invocation.executeCommand _ ["start", n] =>
    if n = name ∧ st.isSome then some true else st
  | Invocation.executeCommand _ ["stop", n] =>
    if n = name ∧ st.isSome then some false else st
  | Invocation.executeCommand _ ["kill", n] =>
    if n = name ∧ st.isSome then some false else st
  | Invocation.executeCommand _ ["rm", n] =>
    if n = name then none else st
  | _ => st

/-- The state of the container `name` after the invocations of a trace. -/
def simState (init : List (String × Bool)) (name : String) (t : List Invocation) :
    Option Bool :=
  t.foldl (simStep name) (init.lookup name)

/-- The name of the container whose simulated id is `id`. -/
def simNameOfId (id : String) : Option String :=
  if id.data.take 3 = ['i', 'd', '-'] then some (String.mk (id.data.drop 3)) else none

/-- A simulated runtime: it starts with the containers `init` (name, running), assigns the
container `n` the id `id-n`, lets every mutating command succeed, and answers the
inspection and listing queries from the state reached so far. -/
def simRuntime (env : List (String × String)) (cwd : String) (manualTargetting : Bool)
    (init : List (String × Bool)) : Runtime where
  ExpandEnv := fun s => osExpand s (lookupEnv env)
  Getwd := cwd
  unmarshalMounts := fun _ => none
  isManualTargetting := manualTargetting
  verbose := false
  commandOutput := fun t _ args =>
    match args with
    | ["inspect", "--format=\x7b\x7b.Id\x7d\x7d", n] =>
      if (simState init n t).isSome then ("id-" ++ n, false)
      else ("Error: No such image or container: " ++ n, true)
    | _ => ("", true)
  pipedCommandOutput := fun t cmds =>
    match cmds with
    | [["docker", "ps", "--quiet", "--all", "--no-trunc"], ["grep", "-wF", id]] =>
      match simNameOfId id with
      | some n => if (simState init n t).isSome then some (id ++ "\n") else none
      | none => none
    | [["docker", "ps", "--quiet", "--no-trunc"], ["grep", "-wF", id]] =>
      match simNameOfId id with
      | some n => if simState init n t = some true then some (id ++ "\n") else none
      | none => none
    | _ => none
  executeCommand := fun _ _ _ => true

/-- The runtime of the examples: `X=db` and `HOME=/home/u` in the environment, working
directory `/srv`, no manual targetting, a running container `web` and a stopped
container `old`. -/
def sampleRuntime : Runtime :=
  simRuntime [("X", "db"), ("HOME", "/home/u")] "/srv" false [("web", true), ("old", false)]

/-- A runtime whose working directory has a colon in its name. -/
def colonRuntime : Runtime :=
  simRuntime [] "/mnt/a:b" false []

/-- A container with one relative volume. -/
def relativeVolume : Container :=
  { Name := "app", Image := "img", Run := { Volume := ["data:/data"] } }

/-! ## The two formats of a volume binding list -/

/-- The successful result of a computation, if any. -/
def Result.toOption {α : Type} : Result α → Option α
  | Result.ok a => some a
  | Result.panic _ => none

/-- The legacy text rendering `map[c1:h1 c2:h2 ...]` of a list of bindings
(container path, host path). -/
def renderVolumes (bindings : List (String × String)) : String :=
  "map[" ++ Join (bindings.map fun b => b.1 ++ ":" ++ b.2) " " ++ "]"

/-- The bindings (container path, host path) that a structured mount list describes. -/
def bindingsOf (mounts : List Mount) : List (String × String) :=
  mounts.map fun m => (m.Destination, m.Source)

/-- A path that the legacy text format can carry: no space, no colon, no line break. -/
def legacySafe (s : String) : Prop :=
  ' ' ∉ s.data ∧ ':' ∉ s.data ∧ '\n' ∉ s.data

instance (s : String) : Decidable (legacySafe s) := by
  unfold legacySafe; infer_instance

/-- The answer of the sample mounts query: the JSON text of one mount. -/
def sampleMountsJson : String :=
  "[\x7b\"Source\":\"/srv/my data\",\"Destination\":\"/data\",\"Mode\":\"\",\"RW\":true\x7d]"

/-- A runtime in which the container `store` has the single volume `/data`, backed by the
host directory `/srv/my data`; it answers the mounts query only. -/
def mountsRuntime : Runtime :=
  { simRuntime [] "/srv" false [("store", true)] with
    unmarshalMounts := fun o =>
      if o = sampleMountsJson then
        some [{ Source := "/srv/my data", Destination := "/data", Mode := "", RW := true }]
      else none
    commandOutput := fun _ _ args =>
      match args with
      | ["inspect", "--format=\x7b\x7bjson .Mounts\x7d\x7d", "store"] => (sampleMountsJson, false)
      | _ => ("<no value>", false) }

/-- A runtime in which the container `store` has the volumes `/data` and `/logs`, backed
by `/srv/data` and `/srv/logs`; it answers the mounts query only. -/
def twoMountsRuntime : Runtime :=
  { simRuntime [] "/srv" false [("store", true)] with
    unmarshalMounts := fun o =>
      if o = "two mounts" then
        some [{ Source := "/srv/data", Destination := "/data", Mode := "", RW := true },
              { Source := "/srv/logs", Destination := "/logs", Mode := "ro", RW := false }]
      else none
    commandOutput := fun _ _ args =>
      match args with
      | ["inspect", "--format=\x7b\x7bjson .Mounts\x7d\x7d", "store"] => ("two mounts", false)
      | _ => ("<no value>", false) }

/-- The stopped container of the sample runtime. -/
def oldContainer : Container := { Name := "old", Image := "img" }

/-- The running container of the sample runtime. -/
def webContainer : Container := { Name := "web", Image := "img" }

/-- A container that the sample runtime does not know. -/
def dbContainer : Container := { Name := "db", Image := "postgres" }

/-- A container that is flagged manual. -/
def manualContainer : Container := { Name := "web", Image := "img", Manual := true }

/-- A runtime that knows no container at all. -/
def emptyRuntime : Runtime :=
  simRuntime [] "/srv" false []

/-- A container whose command sequence has an element that is not a string. -/
def badCommand : Container :=
  { Name := "db", Image := "img", Run := { Command := Value.seq [Value.str "echo", Value.num 42] } }

/-- The world after one more console message. -/
def World.printed (w : World) (m : Console) : World :=
  { w with console := w.console ++ [m] }

/-! ## Predicates on run parameters -/

/-- Every repeatable (list) field is empty. -/
def RunParameters.listsEmpty (r : RunParameters) : Prop :=
  r.RawAddHost = [] ∧ r.RawOther = [] ∧ r.Dns = [] ∧ r.Env = [] ∧ r.Expose = [] ∧
  r.Link = [] ∧ r.LxcConf = [] ∧ r.MappedVolumesFrom = [] ∧ r.Publish = [] ∧
  r.Volume = [] ∧ r.VolumesFrom = []

instance (r : RunParameters) : Decidable r.listsEmpty := by
  unfold RunParameters.listsEmpty; infer_instance

/-- Every boolean field is false. -/
def RunParameters.boolsFalse (r : RunParameters) : Prop :=
  r.Detach = false ∧ r.Interactive = false ∧ r.Privileged = false ∧
  r.PublishAll = false ∧ r.Rm = false ∧ r.Tty = false

instance (r : RunParameters) : Decidable r.boolsFalse := by
  unfold RunParameters.boolsFalse; infer_instance

/-- Every scalar field has the value for which `Container.run` emits nothing: the string
fields are empty, `CpuShares` is not positive and the network mode is `bridge`. -/
def RunParameters.scalarsUnset (rt : Runtime) (r : RunParameters) : Prop :=
  r.Cidfile = "" ∧ r.CpuShares ≤ 0 ∧ r.Entrypoint = "" ∧ r.Hostname = "" ∧
  r.Memory = "" ∧ r.Net rt = "bridge" ∧ r.User = "" ∧ r.Workdir = ""

instance (rt : Runtime) (r : RunParameters) : Decidable (r.scalarsUnset rt) := by
  unfold RunParameters.scalarsUnset; infer_instance

/-- A container that sets nothing but a host name. -/
def hostnameOnly : Container :=
  { Name := "web", Image := "img", Run := { Hostname := "web1" } }

/-- A container whose command is the number 42. -/
def numericCommand : Container :=
  { Name := "db", Image := "img", Run := { Command := Value.num 42 } }

/-- A container with the placeholder `$X` as a DNS server and as a link. -/
def placeholderLink : Container :=
  { Name := "app", Image := "img", Run := { Dns := ["$X"], Link := ["$X"] } }

/-- A container with several kinds of parameters: flags, an expanded value, a relative
volume and a command sequence. -/
def fullExample : Container :=
  { Name := "app", Image := "img",
    Run := { Detach := true, Env := ["HOME=$HOME"], Publish := ["80:80"],
             Volume := ["data:/data:ro", "/abs:/abs"],
             Command := Value.seq [Value.str "echo", Value.str "hi"] } }

/-! ## Samples for images and the volume resolver -/

/-- A runtime that has the image `img` and in whose environment `D` is `/src/app`. -/
def imageRuntime : Runtime :=
  { simRuntime [("D", "/src/app")] "/srv" false [] with
    pipedCommandOutput := fun _ cmds =>
      match cmds with
      | [["docker", "images", "--no-trunc"], ["grep", "-wF", "img"]] =>
        some "img   latest   0123456789ab\n"
      | _ => none }

/-- A container whose image is built from the Dockerfile location `$D`. -/
def builtContainer : Container :=
  { Name := "app", Image := "img", Dockerfile := "$D" }

/-- A container whose image `fresh` is pulled. -/
def pulledContainer : Container :=
  { Name := "app", Image := "fresh" }

/-- The flag arguments emitted after the network mode and before the mapped volumes. -/
def flagsAfterNet (rt : Runtime) (r : RunParameters) : List String :=
  r.RawOther.map rt.ExpandEnv ++
  (if 0 < r.Cidfile.length then ["--cidfile", rt.ExpandEnv r.Cidfile] else []) ++
  (if 0 < r.CpuShares then ["--cpu-shares", rt.ExpandEnv (Itoa r.CpuShares)] else []) ++
  (if r.Detach then ["--detach"] else []) ++
  (r.Dns.flatMap fun e => ["--dns", rt.ExpandEnv e]) ++
  (if 0 < r.Entrypoint.length then ["--entrypoint", rt.ExpandEnv r.Entrypoint] else []) ++
  (r.Env.flatMap fun e => ["--env", rt.ExpandEnv e]) ++
  (r.Expose.flatMap fun e => ["--expose", rt.ExpandEnv e]) ++
  (if 0 < r.Hostname.length then ["--hostname", rt.ExpandEnv r.Hostname] else []) ++
  (if r.Interactive then ["--interactive"] else []) ++
  (r.Link.flatMap fun e => ["--link", e]) ++
  (r.LxcConf.flatMap fun e => ["--lxc-conf", rt.ExpandEnv e])

/-- The run parameters with the network mode left empty. -/
def RunParameters.withoutNet (r : RunParameters) : RunParameters :=
  { r with RawNet := "" }

/-- A container on the network of the host. -/
def hostNetwork : Container :=
  { Name := "app", Image := "img", Run := { RawAddHost := ["db:10.0.0.2"], RawNet := "host",
                                            Detach := true } }

/-- The world after one more process invocation. -/
def World.issued (w : World) (i : Invocation) : World :=
  { w with trace := w.trace ++ [i] }

/-- The legacy volumes query of `getSourceForVolume`. -/
def volumesQuery (source : String) : Invocation :=
  Invocation.commandOutput "docker" ["inspect", "--format=\x7b\x7b.Volumes\x7d\x7d", source]

/-- The mounts query of `getSourceForVolumeFromMounts`. -/
def mountsQuery (source : String) : Invocation :=
  Invocation.commandOutput "docker"
    ["inspect", "--format=\x7b\x7bjson .Mounts\x7d\x7d", source]

/-- A runtime in which the container `store` answers the legacy volumes query with the
map of `/data` and `/logs`; every other query fails. -/
def legacyRuntime : Runtime :=
  { simRuntime [] "/srv" false [("store", true)] with
    commandOutput := fun _ _ args =>
      match args with
      | ["inspect", "--format=\x7b\x7b.Volumes\x7d\x7d", "store"] =>
        ("map[/data:/srv/data /logs:/srv/logs]", false)
      | _ => ("", true) }

/-- A runtime in which the container `store` has the mounts `/data2 -> /srv/data2` and
`/data -> /srv/data`, and answers the legacy volumes query with the sentinel. -/
def prefixMountsRuntime : Runtime :=
  { simRuntime [] "/srv" false [("store", true)] with
    unmarshalMounts := fun o =>
      if o = "prefix mounts" then
        some [{ Source := "/srv/data2", Destination := "/data2", Mode := "", RW := true },
              { Source := "/srv/data", Destination := "/data", Mode := "", RW := true }]
      else none
    commandOutput := fun _ _ args =>
      match args with
      | ["inspect", "--format=\x7b\x7bjson .Mounts\x7d\x7d", "store"] => ("prefix mounts", false)
      | _ => ("<no value>", false) }

/-- The inspection query of `getId`. -/
def idQuery (name : String) : Invocation :=
  Invocation.commandOutput "docker" ["inspect", "--format=\x7b\x7b.Id\x7d\x7d", name]

/-- A runtime whose inspection query succeeds and answers the sentinel, a second time the
sentinel, and then an id. -/
def sentinelRuntime : Runtime :=
  { simRuntime [] "/srv" false [] with
    commandOutput := fun _ _ args =>
      match args with
      | ["inspect", "--format=\x7b\x7b.Id\x7d\x7d", "web"] => ("<no value>|<no value>|4f2a", false)
      | ["inspect", "--format=\x7b\x7b.Id\x7d\x7d", "none"] => ("<no value>|<no value>", false)
      | _ => ("", true) }

/-- The values of the `--volume` flags for mapped-volumes-from entries, as the
specification words them: each entry, after environment expansion, is split into source
container, source volume and destination; the volume source resolver is called for the
source container and volume, one entry after the other; the value is the resolved
source, a colon and the destination. The result is `none` if an entry has fewer than
three segments or the resolver panics. -/
def mappedVolumeValues (rt : Runtime) : List String → World → Option (List String)
  | [], _ => some []
  | entry :: rest, w =>
    match Split (rt.ExpandEnv entry) ':' with
    | source :: volume :: dest :: _ =>
      match getSourceForVolume rt source volume w with
      | (Result.ok s, w1) =>
        match mappedVolumeValues rt rest w1 with
        | some values => some ((s ++ ":" ++ dest) :: values)
        | none => none
      | (Result.panic _, _) => none
    | _ => none

/-- A container that maps two volumes of the container `store`. -/
def mappedExample : Container :=
  { Name := "app", Image := "img",
    Run := { MappedVolumesFrom := ["store:/data:/var/data", "store:/logs:/var/logs"],
             Memory := "1g" } }

/-! ## Basic facts about the embedding -/

theorem bind_eq {α β : Type} (x : Prog α) (f : α → Prog β) (w : World) :
    (x >>= f) w = Prog.bind x f w := rfl

theorem pure_eq {α : Type} (a : α) (w : World) :
    (Pure.pure a : Prog α) w = (Result.ok a, w) := rfl

theorem foldl_append_flatMap {α β : Type} (f : α → List β) (l : List α) (init : List β) :
    l.foldl (fun acc e => acc ++ f e) init = init ++ l.flatMap f := by
  induction l generalizing init with
  | nil => simp
  | cons a l ih => simp [ih, List.append_assoc]

theorem ite_append_self {β : Type} (c : Prop) [Decidable c] (a x : List β) :
    (if c then a ++ x else a) = a ++ (if c then x else []) := by
  split <;> simp

theorem AddHost_eq (rt : Runtime) (r : RunParameters) :
    r.AddHost rt = r.RawAddHost.map rt.ExpandEnv := by
  unfold RunParameters.AddHost
  rw [foldl_append_flatMap (fun e => [rt.ExpandEnv e])]
  induction r.RawAddHost with
  | nil => rfl
  | cons a l ih => simpa using ih

theorem Other_eq (rt : Runtime) (r : RunParameters) :
    r.Other rt = r.RawOther.map rt.ExpandEnv := by
  unfold RunParameters.Other
  rw [foldl_append_flatMap (fun e => [rt.ExpandEnv e])]
  induction r.RawOther with
  | nil => rfl
  | cons a l ih => simpa using ih

/-- The mapped-volume loop appends to its accumulator and is otherwise independent of
it. -/
theorem appendMappedVolumes_eq (rt : Runtime) (l : List String) (args : List String)
    (w : World) :
    appendMappedVolumes rt args l w =
      match appendMappedVolumes rt [] l w with
      | (Result.ok mv, w1) => (Result.ok (args ++ mv), w1)
      | (Result.panic e, w1) => (Result.panic e, w1) := by
  induction l generalizing args w with
  | nil => simp [appendMappedVolumes, Prog.pure]
  | cons a l ih =>
    simp only [appendMappedVolumes]
    generalize Split (rt.ExpandEnv a) ':' = x
    rcases x with _ | ⟨source, _ | ⟨volume, _ | ⟨dest, rest⟩⟩⟩
    · simp [throwFatal]
    · simp [throwFatal]
    · simp [throwFatal]
    · simp only [Prog.bind]
      cases hres : getSourceForVolume rt source volume w with
      | mk res w1 =>
        cases res with
        | ok src =>
          simp only
          rw [ih (args ++ ["--volume", Join [src, dest] ":"]) w1,
            ih ([] ++ ["--volume", Join [src, dest] ":"]) w1]
          cases hrest : appendMappedVolumes rt [] l w1 with
          | mk res2 w2 =>
            cases res2 with
            | ok mv => simp [List.append_assoc]
            | panic e => rfl
        | panic e => rfl

/-- When the `Command` switch returns, it has appended the command tokens. -/
theorem appendCommand_ok (args : List String) (v : Value) (w : World) (a : List String)
    (w1 : World) (h : appendCommand args v w = (Result.ok a, w1)) :
    a = args ++ commandTokens v := by
  cases v with
  | null => simp [appendCommand, Prog.pure] at h; simp [commandTokens, h.1.symm]
  | bool b =>
    simp [appendCommand, Prog.pure, Prog.bind, say] at h
    simp [commandTokens, h.1.symm]
  | num n =>
    simp [appendCommand, Prog.pure, Prog.bind, say] at h
    simp [commandTokens, h.1.symm]
  | str cmd =>
    simp only [appendCommand, Prog.pure, Prod.mk.injEq, Result.ok.injEq] at h
    rw [← h.1]
    by_cases hc : 0 < cmd.length <;> simp [commandTokens, hc]
  | seq cmd =>
    simp only [appendCommand, Prog.bind] at h
    cases hs : commandStrings cmd with
    | ok cmds =>
      simp [hs, liftExcept, Prog.pure] at h
      simp [commandTokens, hs, h.1.symm]
    | error e => simp [hs, liftExcept, throwFatal] at h

/-- The translated argument assembly agrees with its decomposition: `run`, the flags
before the mapped volumes, the mapped volumes, the flags after them, the name flag and
the image, and then the `Command` switch. -/
theorem runArgs_eq (rt : Runtime) (c : Container) (w : World) :
    c.runArgs rt w =
      match appendMappedVolumes rt [] c.Run.MappedVolumesFrom w with
      | (Result.ok mv, w1) =>
        appendCommand
          (["run"] ++ flagsBeforeMapped rt c.Run ++ mv ++ flagsAfterMapped rt c.Run ++
            ["--name", c.Name, c.Image]) c.Run.Command w1
      | (Result.panic e, w1) => (Result.panic e, w1) := by
  unfold Container.runArgs
  simp -zeta only [ite_append_self]
  simp only [bind_eq, Prog.bind]
  rw [appendMappedVolumes_eq]
  cases hmv : appendMappedVolumes rt [] c.Run.MappedVolumesFrom w with
  | mk res w1 =>
    cases res with
    | panic e => rfl
    | ok mv =>
      simp only [pure_eq, AddHost_eq, Other_eq, flagsBeforeMapped, flagsAfterMapped,
        foldl_append_flatMap, ite_append_self, List.flatMap_map, List.flatMap_singleton',
        List.append_assoc, List.singleton_append, List.cons_append, List.nil_append]

/-! ## Argument assembly: minimal invocation, shape, command tokens -/

/-- C1, as stated, fails: a container with every list field empty, every boolean false and
no command, but with a host name, is assembled to an argument list with a `--hostname`
pair, not to the four-element minimal list. -/
theorem minimal_invocation_needs_scalars_unset :
    hostnameOnly.Run.listsEmpty ∧ hostnameOnly.Run.boolsFalse ∧
    (hostnameOnly.runArgs sampleRuntime { }).1 =
      Result.ok ["run", "--hostname", "web1", "--name", "web", "img"] ∧
    (hostnameOnly.runArgs sampleRuntime { }).1 ≠
      Result.ok ["run", "--name", hostnameOnly.Name, hostnameOnly.Image] := by
  refine ⟨by decide, by decide, by decide, by decide⟩

/-- C1, amended: when every list field is empty, every boolean is false, every scalar field
is unset (empty strings, `CpuShares` not positive, network mode `bridge`) and the command
is absent, the assembled argument list is exactly `run --name Name Image`, and the
assembly issues no invocation and prints nothing. -/
theorem minimal_invocation (rt : Runtime) (c : Container) (w : World)
    (hl : c.Run.listsEmpty) (hb : c.Run.boolsFalse) (hs : c.Run.scalarsUnset rt)
    (hc : c.Run.Command = Value.null) :
    c.runArgs rt w = (Result.ok ["run", "--name", c.Name, c.Image], w) := by
  obtain ⟨h1, h2, h3, h4, h5, h6, h7, h8, h9, h10, h11⟩ := hl
  obtain ⟨b1, b2, b3, b4, b5, b6⟩ := hb
  obtain ⟨s1, s2, s3, s4, s5, s6, s7, s8⟩ := hs
  rw [runArgs_eq, h8]
  simp only [appendMappedVolumes, Prog.pure, hc, appendCommand]
  simp [flagsBeforeMapped, flagsAfterMapped, h1, h2, h3, h4, h5, h6, h7, h9, h10, h11,
    b1, b2, b3, b4, b5, b6, s1, s3, s4, s5, s6, s7, s8, not_lt.mpr s2]

theorem minimal_invocation_witness :
    ({ Name := "db", Image := "postgres" } : Container).runArgs sampleRuntime { } =
      (Result.ok ["run", "--name", "db", "postgres"], { }) :=
  minimal_invocation sampleRuntime { Name := "db", Image := "postgres" } { }
    (by decide) (by decide) (by decide) rfl

theorem length_pos_of_ne_empty {s : String} (h : s ≠ "") : 0 < s.length := by
  cases s with
  | mk data =>
    cases data with
    | nil => exact absurd rfl h
    | cons c cs => simp [String.length]

theorem commandStrings_map_str (l : List String) :
    commandStrings (l.map Value.str) = Except.ok l := by
  induction l with
  | nil => rfl
  | cons a l ih => simp [commandStrings, ih]

theorem commandStrings_non_string (vs : List Value)
    (h : ∃ v ∈ vs, ∀ s, v ≠ Value.str s) :
    commandStrings vs = Except.error Fatal.typeAssertion := by
  induction vs with
  | nil => simp at h
  | cons v vs ih =>
    cases v with
    | str s =>
      obtain ⟨v, hv, hne⟩ := h
      have hmem : v ∈ vs := by
        rcases List.mem_cons.mp hv with h1 | h1
        · exact absurd h1 (hne s)
        · exact h1
      simp [commandStrings, ih ⟨v, hmem, hne⟩]
    | null => simp [commandStrings]
    | bool b => simp [commandStrings]
    | num n => simp [commandStrings]
    | seq l => simp [commandStrings]

/-- The `Command` switch of `Container.run`, shape by shape: nothing is appended for an
absent command or an empty string; a non-empty string is appended as one token; a
sequence of strings is appended element by element; a sequence with an element that is
not a string panics; a number or a boolean prints an error and appends nothing. -/
theorem appendCommand_by_shape (args : List String) (w : World) :
    appendCommand args Value.null w = (Result.ok args, w) ∧
    appendCommand args (Value.str "") w = (Result.ok args, w) ∧
    (∀ s, s ≠ "" → appendCommand args (Value.str s) w = (Result.ok (args ++ [s]), w)) ∧
    (∀ l : List String,
      appendCommand args (Value.seq (l.map Value.str)) w = (Result.ok (args ++ l), w)) ∧
    (∀ vs, (∃ v ∈ vs, ∀ s, v ≠ Value.str s) →
      appendCommand args (Value.seq vs) w = (Result.panic Fatal.typeAssertion, w)) ∧
    (∀ n, appendCommand args (Value.num n) w =
      (Result.ok args,
        { w with console := w.console ++ [Console.error "cmd is of unknown type!"] })) ∧
    (∀ b, appendCommand args (Value.bool b) w =
      (Result.ok args,
        { w with console := w.console ++ [Console.error "cmd is of unknown type!"] })) := by
  refine ⟨rfl, rfl, ?_, ?_, ?_, fun _ => rfl, fun _ => rfl⟩
  · intro s hs
    simp [appendCommand, Prog.pure, length_pos_of_ne_empty hs]
  · intro l
    simp [appendCommand, Prog.bind, commandStrings_map_str, liftExcept, Prog.pure]
  · intro vs h
    simp [appendCommand, Prog.bind, commandStrings_non_string vs h, liftExcept, throwFatal]

/-- C2: the command `42` is reported as an error, and `docker run` is issued all the same.
On an absent container `db` with image `img` and command `42`, `Container.run` prints
`cmd is of unknown type!` and then issues `docker run --name db img`. -/
theorem numeric_command_still_runs :
    mutating (numericCommand.run sampleRuntime { }).2.trace =
      [Invocation.executeCommand "docker" ["run", "--name", "db", "img"]] ∧
    (numericCommand.run sampleRuntime { }).2.console =
      [Console.printf "Running container db ... ",
       Console.error "cmd is of unknown type!"] ∧
    (numericCommand.run sampleRuntime { }).1 = Result.ok () := by
  refine ⟨by decide, by decide, by decide⟩

/-- C3: for a fixed runtime (environment, working directory, volume resolver) there are a
function `flags` of the run parameters without `Command` (and of the invocations issued
so far, which the resolver's answers depend on) and a function `tokens` of `Command`
alone, such that every successfully assembled argument list is
`run`, `flags`, `--name Name Image`, `tokens`, in this order. -/
theorem run_args_shape (rt : Runtime) :
    ∃ (flags : RunParameters → World → List String) (tokens : Value → List String),
      ∀ (c : Container) (w : World) (args : List String) (w1 : World),
        c.runArgs rt w = (Result.ok args, w1) →
          args = ["run"] ++ flags c.Run.withoutCommand w ++ ["--name", c.Name, c.Image] ++
            tokens c.Run.Command := by
  refine ⟨fun r w =>
      match appendMappedVolumes rt [] r.MappedVolumesFrom w with
      | (Result.ok mv, _) => flagsBeforeMapped rt r ++ mv ++ flagsAfterMapped rt r
      | (Result.panic _, _) => [],
    commandTokens, ?_⟩
  intro c w args w1 h
  rw [runArgs_eq] at h
  have hb : flagsBeforeMapped rt c.Run.withoutCommand = flagsBeforeMapped rt c.Run := rfl
  have ha : flagsAfterMapped rt c.Run.withoutCommand = flagsAfterMapped rt c.Run := rfl
  have hm : c.Run.withoutCommand.MappedVolumesFrom = c.Run.MappedVolumesFrom := rfl
  simp only [hb, ha, hm]
  cases hmv : appendMappedVolumes rt [] c.Run.MappedVolumesFrom w with
  | mk res w2 =>
    cases res with
    | panic e => simp [hmv] at h
    | ok mv =>
      simp only [hmv] at h
      rw [appendCommand_ok _ _ _ _ _ h]
      simp [List.append_assoc]

theorem run_args_shape_witness :
    ∃ (flags : RunParameters → World → List String) (tokens : Value → List String),
      ["run", "--detach", "--env", "HOME=/home/u", "--publish", "80:80",
        "--volume", "/srv/data:/data:ro", "--volume", "/abs:/abs",
        "--name", "app", "img", "echo", "hi"] =
      ["run"] ++ flags fullExample.Run.withoutCommand { } ++
        ["--name", fullExample.Name, fullExample.Image] ++ tokens fullExample.Run.Command :=
  (run_args_shape sampleRuntime).imp fun _ h =>
    h.imp fun _ h => h fullExample { } _ { } (by decide)

/-! ## Argument assembly: repeatable fields -/

theorem infix_append_left_of {β : Type} {x a : List β} (b : List β) (h : x <:+: a) :
    x <:+: a ++ b :=
  h.trans (List.infix_append' [] a b |> fun h => by simpa using h)

theorem infix_append_right_of {β : Type} {x b : List β} (a : List β) (h : x <:+: b) :
    x <:+: a ++ b :=
  h.trans (List.suffix_append a b).isInfix

theorem infix_flatMap_of_mem {α β : Type} (f : α → List β) {l : List α} {e : α}
    (h : e ∈ l) : f e <:+: l.flatMap f := by
  obtain ⟨s, t, rfl⟩ := List.append_of_mem h
  simp only [List.flatMap_append, List.flatMap_cons]
  exact infix_append_right_of _ (infix_append_left_of _ List.infix_rfl)

/-- Every block of the flags before or after the mapped volumes occurs in a successfully
assembled argument list. -/
theorem infix_args_of_infix_flags (rt : Runtime) (c : Container) (w : World)
    (args : List String) (w1 : World) (h : c.runArgs rt w = (Result.ok args, w1))
    (x : List String)
    (hx : x <:+: flagsBeforeMapped rt c.Run ∨ x <:+: flagsAfterMapped rt c.Run) :
    x <:+: args := by
  rw [runArgs_eq] at h
  cases hmv : appendMappedVolumes rt [] c.Run.MappedVolumesFrom w with
  | mk res w2 =>
    cases res with
    | panic e => simp [hmv] at h
    | ok mv =>
      simp only [hmv] at h
      rw [appendCommand_ok _ _ _ _ _ h]
      rcases hx with hx | hx
      · exact infix_append_left_of _ (infix_append_left_of _ (infix_append_left_of _
          (infix_append_left_of _ (infix_append_right_of _ hx))))
      · exact infix_append_left_of _ (infix_append_left_of _ (infix_append_right_of _ hx))

/-- The repeatable fields in a successfully assembled argument list: add-host, dns, env,
expose, lxc-conf, publish and volumes-from each contribute, as one contiguous block, one
pair of the flag and the environment expansion of the element per element, in element
order; link contributes one pair of `--link` and the element as written, without
environment expansion. -/
theorem repeatable_fields_emitted (rt : Runtime) (c : Container) (w : World)
    (args : List String) (w1 : World) (h : c.runArgs rt w = (Result.ok args, w1)) :
    (c.Run.RawAddHost.flatMap fun e => ["--add-host", rt.ExpandEnv e]) <:+: args ∧
    (c.Run.Dns.flatMap fun e => ["--dns", rt.ExpandEnv e]) <:+: args ∧
    (c.Run.Env.flatMap fun e => ["--env", rt.ExpandEnv e]) <:+: args ∧
    (c.Run.Expose.flatMap fun e => ["--expose", rt.ExpandEnv e]) <:+: args ∧
    (c.Run.LxcConf.flatMap fun e => ["--lxc-conf", rt.ExpandEnv e]) <:+: args ∧
    (c.Run.Publish.flatMap fun e => ["--publish", rt.ExpandEnv e]) <:+: args ∧
    (c.Run.VolumesFrom.flatMap fun e => ["--volumes-from", rt.ExpandEnv e]) <:+: args ∧
    (c.Run.Link.flatMap fun e => ["--link", e]) <:+: args := by
  have key := infix_args_of_infix_flags rt c w args w1 h
  refine ⟨?_, ?_, ?_, ?_, ?_, ?_, ?_, ?_⟩
  · refine key _ (Or.inl ?_)
    unfold flagsBeforeMapped
    iterate 13 apply infix_append_left_of
    exact List.infix_rfl
  · refine key _ (Or.inl ?_)
    unfold flagsBeforeMapped
    iterate 7 apply infix_append_left_of
    exact infix_append_right_of _ List.infix_rfl
  · refine key _ (Or.inl ?_)
    unfold flagsBeforeMapped
    iterate 5 apply infix_append_left_of
    exact infix_append_right_of _ List.infix_rfl
  · refine key _ (Or.inl ?_)
    unfold flagsBeforeMapped
    iterate 4 apply infix_append_left_of
    exact infix_append_right_of _ List.infix_rfl
  · refine key _ (Or.inl ?_)
    unfold flagsBeforeMapped
    exact infix_append_right_of _ List.infix_rfl
  · refine key _ (Or.inr ?_)
    unfold flagsAfterMapped
    iterate 7 apply infix_append_left_of
    exact infix_append_right_of _ List.infix_rfl
  · refine key _ (Or.inr ?_)
    unfold flagsAfterMapped
    exact infix_append_left_of _ (infix_append_right_of _ List.infix_rfl)
  · refine key _ (Or.inl ?_)
    unfold flagsBeforeMapped
    exact infix_append_left_of _ (infix_append_right_of _ List.infix_rfl)

theorem repeatable_fields_emitted_witness :
    ["--env", "HOME=/home/u"] <:+:
      ["run", "--detach", "--env", "HOME=/home/u", "--publish", "80:80",
        "--volume", "/srv/data:/data:ro", "--volume", "/abs:/abs",
        "--name", "app", "img", "echo", "hi"] :=
  (repeatable_fields_emitted sampleRuntime fullExample { } _ { } (by decide)).2.2.1

/-- C4: a link is emitted as written. With `X=db` in the environment, the container with
DNS server `$X` and link `$X` is assembled to `--dns db` (the sibling field is expanded)
and `--link $X` (the placeholder is emitted literally). -/
theorem link_placeholder_not_expanded :
    sampleRuntime.ExpandEnv "$X" = "db" ∧
    (placeholderLink.runArgs sampleRuntime { }).1 =
      Result.ok ["run", "--dns", "db", "--link", "$X", "--name", "app", "img"] := by
  refine ⟨by decide, by decide⟩

/-! ## Splitting and joining -/

theorem splitChars_ne_nil (sep : Char) (cs : List Char) : splitChars sep cs ≠ [] := by
  cases cs with
  | nil => simp [splitChars]
  | cons c cs =>
    simp only [splitChars]
    split
    · simp
    · split <;> simp

theorem splitChars_of_not_mem {sep : Char} {cs : List Char} (h : sep ∉ cs) :
    splitChars sep cs = [cs] := by
  induction cs with
  | nil => rfl
  | cons c cs ih =>
    have hc : c ≠ sep := fun e => h (e ▸ List.mem_cons_self _ _)
    have hcs : sep ∉ cs := fun e => h (List.mem_cons_of_mem _ e)
    simp [splitChars, hc, ih hcs]

theorem splitChars_append_sep {sep : Char} {xs : List Char} (ys : List Char)
    (h : sep ∉ xs) : splitChars sep (xs ++ sep :: ys) = xs :: splitChars sep ys := by
  induction xs with
  | nil => simp [splitChars]
  | cons c cs ih =>
    have hc : c ≠ sep := fun e => h (e ▸ List.mem_cons_self _ _)
    have hcs : sep ∉ cs := fun e => h (List.mem_cons_of_mem _ e)
    simp [splitChars, hc, ih hcs]

theorem not_mem_of_mem_splitChars {sep : Char} {cs seg : List Char}
    (h : seg ∈ splitChars sep cs) : sep ∉ seg := by
  induction cs generalizing seg with
  | nil =>
    simp only [splitChars, List.mem_singleton] at h
    subst h
    exact List.not_mem_nil _
  | cons c cs ih =>
    simp only [splitChars] at h
    by_cases hc : c = sep
    · simp only [hc, if_true, List.mem_cons] at h
      rcases h with h | h
      · subst h
        exact List.not_mem_nil _
      · exact ih h
    · simp only [hc, if_false] at h
      cases hs : splitChars sep cs with
      | nil => exact absurd hs (splitChars_ne_nil sep cs)
      | cons x t =>
        rw [hs] at h ih
        simp only [List.mem_cons] at h
        rcases h with h | h
        · subst h
          intro hmem
          rcases List.mem_cons.mp hmem with e | e
          · exact hc e.symm
          · exact ih (List.mem_cons_self _ _) e
        · exact ih (List.mem_cons_of_mem _ h)

/-- The segments of `strings.Split` do not contain the separator. -/
theorem not_mem_of_mem_Split {sep : Char} {s seg : String} (h : seg ∈ Split s sep) :
    sep ∉ seg.data := by
  simp only [Split, List.mem_map] at h
  obtain ⟨cs, hcs, rfl⟩ := h
  exact not_mem_of_mem_splitChars hcs

theorem Join_cons_cons (a b : String) (t : List String) (sep : String) :
    Join (a :: b :: t) sep = a ++ sep ++ Join (b :: t) sep := rfl

/-- Splitting a joined list gives the list back, when no element contains the
separator. -/
theorem Split_Join (sep : Char) (l : List String) (hne : l ≠ [])
    (h : ∀ x ∈ l, sep ∉ x.data) : Split (Join l (String.mk [sep])) sep = l := by
  induction l with
  | nil => exact absurd rfl hne
  | cons a t ih =>
    cases t with
    | nil =>
      simp [Join, Split, splitChars_of_not_mem (h a (List.mem_cons_self _ _))]
    | cons b t =>
      have ha : sep ∉ a.data := h a (List.mem_cons_self _ _)
      have ht := ih (by simp) (fun x hx => h x (List.mem_cons_of_mem _ hx))
      rw [Join_cons_cons]
      simp only [Split, String.data_append, List.append_assoc, List.singleton_append,
        splitChars_append_sep _ ha, List.map_cons] at ht ⊢
      rw [ht]

theorem Join_mk_cons (x : Char) (h : List Char) (rest : List String) (sep : String) :
    Join (String.mk (x :: h) :: rest) sep =
      String.mk (x :: (Join (String.mk h :: rest) sep).data) := by
  cases rest with
  | nil => rfl
  | cons b t =>
    rw [Join_cons_cons, Join_cons_cons]
    apply String.ext
    simp [String.data_append]

/-- Joining the segments of a split gives the text back. -/
theorem Join_splitChars (sep : Char) (cs : List Char) :
    Join ((splitChars sep cs).map String.mk) (String.mk [sep]) = String.mk cs := by
  induction cs with
  | nil => rfl
  | cons c cs ih =>
    simp only [splitChars]
    cases hs : splitChars sep cs with
    | nil => exact absurd hs (splitChars_ne_nil sep cs)
    | cons x t =>
      rw [hs] at ih
      by_cases hc : c = sep
      · simp only [hc, if_true, List.map_cons] at ih ⊢
        rw [Join_cons_cons, ih]
        apply String.ext
        simp [String.data_append]
      · simp only [hc, if_false, List.map_cons] at ih ⊢
        rw [Join_mk_cons, ih]

theorem Join_Split (sep : Char) (s : String) :
    Join (Split s sep) (String.mk [sep]) = s :=
  Join_splitChars sep s.data

/-! ## Argument assembly: volumes -/

/-- C5, as stated, fails: in the working directory `/mnt/a:b` the relative volume
`data:/data` is emitted as `/mnt/a:b/data:/data`, and splitting this value on `:` gives
three segments, so that the destination `/data` is no longer the segment after the
first. -/
theorem volume_round_trip_needs_colon_free_cwd :
    (relativeVolume.runArgs colonRuntime { }).1 =
      Result.ok ["run", "--volume", "/mnt/a:b/data:/data", "--name", "app", "img"] ∧
    Split (colonRuntime.ExpandEnv "data:/data") ':' = ["data", "/data"] ∧
    volumeArg colonRuntime "data:/data" = "/mnt/a:b/data:/data" ∧
    Split (volumeArg colonRuntime "data:/data") ':' = ["/mnt/a", "b/data", "/data"] ∧
    (Split (volumeArg colonRuntime "data:/data") ':').tail ≠ ["/data"] := by
  refine ⟨by decide, by decide, by decide, by decide, by decide⟩

/-- C5, amended: let a volume entry of the container, after environment expansion, split
on `:` into the host path `p` and the segments `segs`. The assembled argument list
contains `--volume` followed by the emitted value; the emitted value is the expanded
entry unchanged if `p` is absolute, and the working directory, a slash and `p`, followed
by `segs`, joined with `:`, if `p` is relative; and if `p` is absolute or the working
directory contains no `:`, splitting the emitted value on `:` gives the (rewritten) host
path followed by exactly `segs`. -/
theorem volume_round_trip (rt : Runtime) (c : Container) (w : World) (args : List String)
    (w1 : World) (volume p : String) (segs : List String)
    (h : c.runArgs rt w = (Result.ok args, w1)) (hv : volume ∈ c.Run.Volume)
    (hsplit : Split (rt.ExpandEnv volume) ':' = p :: segs) :
    ["--volume", volumeArg rt volume] <:+: args ∧
    (IsAbs p = true → volumeArg rt volume = rt.ExpandEnv volume) ∧
    (IsAbs p = false → volumeArg rt volume = Join ((rt.Getwd ++ "/" ++ p) :: segs) ":") ∧
    (IsAbs p = true ∨ ':' ∉ rt.Getwd.data →
      Split (volumeArg rt volume) ':' =
        (if IsAbs p = true then p else rt.Getwd ++ "/" ++ p) :: segs) := by
  have hsegs : ∀ x ∈ p :: segs, ':' ∉ x.data := fun x hx =>
    not_mem_of_mem_Split (hsplit ▸ hx)
  have habs : IsAbs p = true → volumeArg rt volume = rt.ExpandEnv volume := by
    intro hp
    have := Join_Split ':' (rt.ExpandEnv volume)
    rw [hsplit] at this
    simpa [volumeArg, hsplit, hp] using this
  have hrel : IsAbs p = false →
      volumeArg rt volume = Join ((rt.Getwd ++ "/" ++ p) :: segs) ":" := by
    intro hp
    simp [volumeArg, hsplit, hp]
  refine ⟨?_, habs, hrel, ?_⟩
  · refine infix_args_of_infix_flags rt c w args w1 h _ (Or.inr ?_)
    unfold flagsAfterMapped
    exact infix_append_left_of _ (infix_append_left_of _ (infix_append_right_of _
      (infix_flatMap_of_mem (fun e => ["--volume", volumeArg rt e]) hv)))
  · intro hor
    by_cases hp : IsAbs p = true
    · rw [habs hp, hsplit]
      simp [hp]
    · have hp' : IsAbs p = false := by simpa using hp
      have hcwd : ':' ∉ rt.Getwd.data := hor.resolve_left hp
      rw [hrel hp']
      simp only [hp, if_false]
      apply Split_Join ':' _ (by simp)
      intro x hx
      rcases List.mem_cons.mp hx with rfl | hx
      · have hpc := hsegs p (List.mem_cons_self _ _)
        simp only [String.data_append, List.mem_append, not_or]
        exact ⟨⟨hcwd, by decide⟩, hpc⟩
      · exact hsegs x (List.mem_cons_of_mem _ hx)

theorem volume_round_trip_witness :
    ["--volume", volumeArg sampleRuntime "data:/data:ro"] <:+:
      ["run", "--detach", "--env", "HOME=/home/u", "--publish", "80:80",
        "--volume", "/srv/data:/data:ro", "--volume", "/abs:/abs",
        "--name", "app", "img", "echo", "hi"] ∧
    (IsAbs "data" = true → volumeArg sampleRuntime "data:/data:ro" =
      sampleRuntime.ExpandEnv "data:/data:ro") ∧
    (IsAbs "data" = false → volumeArg sampleRuntime "data:/data:ro" =
      Join ((sampleRuntime.Getwd ++ "/" ++ "data") :: ["/data", "ro"]) ":") ∧
    (IsAbs "data" = true ∨ ':' ∉ sampleRuntime.Getwd.data →
      Split (volumeArg sampleRuntime "data:/data:ro") ':' =
        (if IsAbs "data" = true then "data" else sampleRuntime.Getwd ++ "/" ++ "data") ::
          ["/data", "ro"]) :=
  volume_round_trip sampleRuntime fullExample { } _ { } "data:/data:ro" "data"
    ["/data", "ro"] (by decide) (by decide) (by decide)

/-! ## Volume source resolver: equivalence of the two formats -/

theorem mem_Join_data {c : Char} {l : List String} {sep : String}
    (h : c ∈ (Join l sep).data) : c ∈ sep.data ∨ ∃ x ∈ l, c ∈ x.data := by
  induction l with
  | nil => simp [Join] at h
  | cons a t ih =>
    cases t with
    | nil => exact Or.inr ⟨a, List.mem_cons_self _ _, h⟩
    | cons b t =>
      rw [Join_cons_cons] at h
      simp only [String.data_append, List.mem_append] at h
      rcases h with (h | h) | h
      · exact Or.inr ⟨a, List.mem_cons_self _ _, h⟩
      · exact Or.inl h
      · rcases ih h with h | ⟨x, hx, hc⟩
        · exact Or.inl h
        · exact Or.inr ⟨x, List.mem_cons_of_mem _ hx, hc⟩

/-- On the rendering of a binding list without line breaks, the regular expression
matches at the start and captures the joined entries. -/
theorem findInner_renderVolumes (bindings : List (String × String))
    (h : ∀ b ∈ bindings, '\n' ∉ b.1.data ∧ '\n' ∉ b.2.data) :
    findInner (renderVolumes bindings).data =
      some (Join (bindings.map fun b => b.1 ++ ":" ++ b.2) " ").data := by
  have hnl : '\n' ∉ (Join (bindings.map fun b => b.1 ++ ":" ++ b.2) " ").data := by
    intro hmem
    rcases mem_Join_data hmem with hsep | ⟨x, hx, hc⟩
    · revert hsep; decide
    · simp only [List.mem_map] at hx
      obtain ⟨b, hb, rfl⟩ := hx
      simp only [String.data_append, List.mem_append] at hc
      rcases hc with (hc | hc) | hc
      · exact (h b hb).1 hc
      · revert hc; decide
      · exact (h b hb).2 hc
  have hdata : (renderVolumes bindings).data =
      'm' :: 'a' :: 'p' :: '[' ::
        ((Join (bindings.map fun b => b.1 ++ ":" ++ b.2) " ").data ++ [']']) := by
    simp [renderVolumes, String.data_append]
  rw [hdata]
  simp [findInner, matchInnerHere, hnl]

theorem Split_pair (c h : String) (hc : ':' ∉ c.data) (hh : ':' ∉ h.data) :
    Split (c ++ ":" ++ h) ':' = [c, h] := by
  have := Split_Join ':' [c, h] (by simp) (by
    intro x hx
    rcases List.mem_cons.mp hx with rfl | hx
    · exact hc
    · rw [List.mem_singleton.mp hx]; exact hh)
  simpa [Join] using this

/-- The legacy scan over the rendered entries and the scan over the mounts agree. -/
theorem scanVolumes_eq_scanMounts (o1 o2 d : String) (mounts : List Mount)
    (hne : mounts ≠ [])
    (h : ∀ m ∈ mounts, ':' ∉ m.Destination.data ∧ ':' ∉ m.Source.data) :
    (scanVolumes o1 d ((bindingsOf mounts).map fun b => b.1 ++ ":" ++ b.2)).toOption =
      (scanMounts o2 d mounts).toOption := by
  induction mounts with
  | nil => exact absurd rfl hne
  | cons m t ih =>
    have hm := h m (List.mem_cons_self _ _)
    simp only [bindingsOf, List.map_cons, scanVolumes, scanMounts,
      Split_pair _ _ hm.1 hm.2]
    by_cases hd : m.Destination = d
    · simp [hd, Except.toOption]
    · simp only [hd, if_false]
      cases t with
      | nil => simp [scanVolumes, scanMounts, Except.toOption]
      | cons m2 t2 =>
        exact ih (by simp) (fun x hx => h x (List.mem_cons_of_mem _ hx))

theorem liftExcept_toOption {α : Type} (e : Except Fatal α) (w : World) :
    (liftExcept e w).1.toOption = e.toOption := by
  cases e <;> rfl

/-- C6, as stated, fails: for the single binding of the container path `/data` to the host
path `/srv/my data`, the mounts format gives `/srv/my data` and the legacy text
`map[/data:/srv/my data]` gives `/srv/my`. -/
theorem format_equivalence_needs_safe_paths :
    mountsRuntime.commandOutput [] "docker"
        ["inspect", "--format=\x7b\x7bjson .Mounts\x7d\x7d", "store"] =
      (sampleMountsJson, false) ∧
    (mountsRuntime.unmarshalMounts sampleMountsJson).map bindingsOf =
      some [("/data", "/srv/my data")] ∧
    renderVolumes [("/data", "/srv/my data")] = "map[/data:/srv/my data]" ∧
    (getSourceForVolumeFromMounts mountsRuntime "store" "/data" { }).1 =
      Result.ok "/srv/my data" ∧
    (getSourceForVolumeFromVolumes (renderVolumes [("/data", "/srv/my data")])
      "/data").toOption = some "/srv/my" := by
  refine ⟨by decide, by decide, by decide, by decide, by decide⟩

/-- C6, amended: for every destination `d` and every mount list whose destinations and
sources contain no space, no colon and no line break, if the mounts query succeeds and
its answer decodes to that list, then `getSourceForVolumeFromMounts` and
`getSourceForVolumeFromVolumes` on the legacy rendering `map[c1:h1 c2:h2 ...]` of the
same bindings return the same host path for `d`, and each fails exactly when the other
does. -/
theorem format_equivalence (rt : Runtime) (source d o : String) (mounts : List Mount)
    (w : World)
    (hq : rt.commandOutput w.trace "docker"
      ["inspect", "--format=\x7b\x7bjson .Mounts\x7d\x7d", source] = (o, false))
    (hdec : rt.unmarshalMounts o = some mounts)
    (hsafe : ∀ m ∈ mounts, legacySafe m.Destination ∧ legacySafe m.Source) :
    (getSourceForVolumeFromMounts rt source d w).1.toOption =
      (getSourceForVolumeFromVolumes (renderVolumes (bindingsOf mounts)) d).toOption := by
  have hm : (getSourceForVolumeFromMounts rt source d w).1.toOption =
      (scanMounts o d mounts).toOption := by
    simp only [getSourceForVolumeFromMounts, bind_eq, Prog.bind, commandOutput, hq, hdec]
    exact liftExcept_toOption _ _
  rw [hm]
  have hsafe2 : ∀ b ∈ bindingsOf mounts, legacySafe b.1 ∧ legacySafe b.2 := by
    intro b hb
    simp only [bindingsOf, List.mem_map] at hb
    obtain ⟨m, hm, rfl⟩ := hb
    exact hsafe m hm
  have hf := findInner_renderVolumes (bindingsOf mounts)
    (fun b hb => ⟨(hsafe2 b hb).1.2.2, (hsafe2 b hb).2.2.2⟩)
  simp only [getSourceForVolumeFromVolumes, hf]
  by_cases hne : mounts = []
  · subst hne
    rfl
  · have hsp :
        Split (String.mk (Join ((bindingsOf mounts).map fun b => b.1 ++ ":" ++ b.2) " ").data)
          ' ' = (bindingsOf mounts).map fun b => b.1 ++ ":" ++ b.2 := by
      apply Split_Join ' ' _ (by simpa [bindingsOf] using hne)
      intro x hx
      simp only [List.mem_map] at hx
      obtain ⟨b, hb, rfl⟩ := hx
      simp only [String.data_append, List.mem_append, not_or]
      exact ⟨⟨(hsafe2 b hb).1.1, by decide⟩, (hsafe2 b hb).2.1⟩
    rw [hsp]
    exact (scanVolumes_eq_scanMounts _ _ d mounts hne
      (fun m hm => ⟨(hsafe m hm).1.2.1, (hsafe m hm).2.2.1⟩)).symm

theorem format_equivalence_witness :
    (getSourceForVolumeFromMounts twoMountsRuntime "store" "/logs" { }).1.toOption =
      (getSourceForVolumeFromVolumes
        (renderVolumes (bindingsOf
          [{ Source := "/srv/data", Destination := "/data", Mode := "", RW := true },
           { Source := "/srv/logs", Destination := "/logs", Mode := "ro", RW := false }]))
        "/logs").toOption :=
  format_equivalence twoMountsRuntime "store" "/logs" "two mounts" _ { }
    (by decide) (by decide) (by decide)

/-! ## State probes -/

theorem mutating_append (t u : List Invocation) :
    mutating (t ++ u) = mutating t ++ mutating u := by
  simp [mutating, List.filter_append]

theorem mutating_commandOutput (t : List Invocation) (name : String) (args : List String) :
    mutating (t ++ [Invocation.commandOutput name args]) = mutating t := by
  simp [mutating, List.filter_append]

theorem mutating_pipedCommandOutput (t : List Invocation) (cmds : List (List String)) :
    mutating (t ++ [Invocation.pipedCommandOutput cmds]) = mutating t := by
  simp [mutating, List.filter_append]

theorem mutating_executeCommand (t : List Invocation) (name : String) (args : List String) :
    mutating (t ++ [Invocation.executeCommand name args]) =
      mutating t ++ [Invocation.executeCommand name args] := by
  simp [mutating, List.filter_append]

/-- Go `getId` never panics and never reports an error; it changes nothing but the `Id`
cache, prints nothing and issues no mutating invocation. -/
theorem getId_frame (rt : Runtime) (c : Container) (w : World) :
    ∃ id c1 w1, c.getId rt w = (Result.ok (id, false, c1), w1) ∧
      c1 = { c with Id := c1.Id } ∧ mutating w1.trace = mutating w.trace ∧
      w1.console = w.console := by
  unfold Container.getId
  by_cases hid : 0 < c.Id.length
  · exact ⟨c.Id, c, w, by simp [hid, pure_eq], rfl, rfl, rfl⟩
  · simp only [hid, if_false, bind_eq, Prog.bind, commandOutput, if_true]
    cases hf : firstId (Split (rt.commandOutput w.trace "docker"
        ["inspect", "--format=\x7b\x7b.Id\x7d\x7d", c.Name]).1 '|') with
    | none =>
      exact ⟨"", c, { w with trace := w.trace ++ [Invocation.commandOutput "docker"
          ["inspect", "--format=\x7b\x7b.Id\x7d\x7d", c.Name]] },
        by simp [pure_eq], rfl, mutating_commandOutput _ _ _, rfl⟩
    | some pid =>
      exact ⟨pid, { c with Id := pid }, { w with trace := w.trace ++
          [Invocation.commandOutput "docker"
            ["inspect", "--format=\x7b\x7b.Id\x7d\x7d", c.Name]] },
        by simp [pure_eq], rfl, mutating_commandOutput _ _ _, rfl⟩

/-- Go `exists` never panics; it changes nothing but the `Id` cache, prints nothing and
issues no mutating invocation. -/
theorem exists_frame (rt : Runtime) (c : Container) (w : World) :
    ∃ b c1 w1, c.exists rt w = (Result.ok (b, c1), w1) ∧
      c1 = { c with Id := c1.Id } ∧ mutating w1.trace = mutating w.trace ∧
      w1.console = w.console := by
  obtain ⟨id, c1, w1, hg, hc, ht, hk⟩ := getId_frame rt c w
  unfold Container.exists
  simp only [bind_eq, Prog.bind, hg, Bool.false_or]
  by_cases hlen : id.length = 0
  · exact ⟨false, c1, w1, by simp [hlen, pure_eq], hc, ht, hk⟩
  · simp only [hlen, decide_False, Bool.false_eq_true, if_false, bind_eq, Prog.bind, pure_eq,
      pipedCommandOutput]
    cases hp : rt.pipedCommandOutput w1.trace
        [["docker", "ps", "--quiet", "--all", "--no-trunc"], ["grep", "-wF", id]] with
    | none =>
      exact ⟨false, c1, { w1 with trace := w1.trace ++ [Invocation.pipedCommandOutput
          [["docker", "ps", "--quiet", "--all", "--no-trunc"], ["grep", "-wF", id]]] },
        by simp [hp, pure_eq], hc, (mutating_pipedCommandOutput _ _).trans ht, hk⟩
    | some result =>
      exact ⟨decide (0 < result.length), c1, { w1 with trace := w1.trace ++
          [Invocation.pipedCommandOutput
            [["docker", "ps", "--quiet", "--all", "--no-trunc"], ["grep", "-wF", id]]] },
        by simp [hp, pure_eq], hc, (mutating_pipedCommandOutput _ _).trans ht, hk⟩

/-- Go `running` never panics; it changes nothing but the `Id` cache, prints nothing and
issues no mutating invocation. -/
theorem running_frame (rt : Runtime) (c : Container) (w : World) :
    ∃ b c1 w1, c.running rt w = (Result.ok (b, c1), w1) ∧
      c1 = { c with Id := c1.Id } ∧ mutating w1.trace = mutating w.trace ∧
      w1.console = w.console := by
  obtain ⟨id, c1, w1, hg, hc, ht, hk⟩ := getId_frame rt c w
  unfold Container.running
  simp only [bind_eq, Prog.bind, hg, Bool.false_or]
  by_cases hlen : id.length = 0
  · exact ⟨false, c1, w1, by simp [hlen, pure_eq], hc, ht, hk⟩
  · simp only [hlen, decide_False, Bool.false_eq_true, if_false, bind_eq, Prog.bind, pure_eq,
      pipedCommandOutput]
    cases hp : rt.pipedCommandOutput w1.trace
        [["docker", "ps", "--quiet", "--no-trunc"], ["grep", "-wF", id]] with
    | none =>
      exact ⟨false, c1, { w1 with trace := w1.trace ++ [Invocation.pipedCommandOutput
          [["docker", "ps", "--quiet", "--no-trunc"], ["grep", "-wF", id]]] },
        by simp [hp, pure_eq], hc, (mutating_pipedCommandOutput _ _).trans ht, hk⟩
    | some result =>
      exact ⟨decide (0 < result.length), c1, { w1 with trace := w1.trace ++
          [Invocation.pipedCommandOutput
            [["docker", "ps", "--quiet", "--no-trunc"], ["grep", "-wF", id]]] },
        by simp [hp, pure_eq], hc, (mutating_pipedCommandOutput _ _).trans ht, hk⟩

theorem exists_frame_of_eq {rt : Runtime} {c c1 : Container} {w w1 : World} {b : Bool}
    (h : c.exists rt w = (Result.ok (b, c1), w1)) :
    c1.Name = c.Name ∧ c1.Manual = c.Manual ∧ c1.Image = c.Image ∧ c1.Run = c.Run ∧
      mutating w1.trace = mutating w.trace ∧ w1.console = w.console := by
  obtain ⟨b2, c2, w2, h2, hc, ht, hk⟩ := exists_frame rt c w
  rw [h] at h2
  simp only [Prod.mk.injEq, Result.ok.injEq] at h2
  obtain ⟨⟨-, rfl⟩, rfl⟩ := h2
  exact ⟨by rw [hc], by rw [hc], by rw [hc], by rw [hc], ht, hk⟩

theorem running_frame_of_eq {rt : Runtime} {c c1 : Container} {w w1 : World} {b : Bool}
    (h : c.running rt w = (Result.ok (b, c1), w1)) :
    c1.Name = c.Name ∧ c1.Manual = c.Manual ∧ c1.Image = c.Image ∧ c1.Run = c.Run ∧
      mutating w1.trace = mutating w.trace ∧ w1.console = w.console := by
  obtain ⟨b2, c2, w2, h2, hc, ht, hk⟩ := running_frame rt c w
  rw [h] at h2
  simp only [Prod.mk.injEq, Result.ok.injEq] at h2
  obtain ⟨⟨-, rfl⟩, rfl⟩ := h2
  exact ⟨by rw [hc], by rw [hc], by rw [hc], by rw [hc], ht, hk⟩

theorem executeCommand_trace (rt : Runtime) (name : String) (args : List String)
    (w : World) :
    (executeCommand rt name args w).2.trace =
      w.trace ++ [Invocation.executeCommand name args] := by
  unfold executeCommand
  by_cases hv : rt.verbose = true <;>
    by_cases hs : rt.executeCommand w.trace name args = true <;> simp [hv, hs]

theorem executeCommand_mutating (rt : Runtime) (name : String) (args : List String)
    (w : World) :
    mutating (executeCommand rt name args w).2.trace =
      mutating w.trace ++ [Invocation.executeCommand name args] := by
  rw [executeCommand_trace, mutating_executeCommand]

/-! ## Lifecycle: remove, stop, kill -/

/-- C7: `Container.rm` by observed state, where `ex` is the answer of the `exists` probe and
`r` the answer of the `running` probe that follows it. On an absent container the call
ends after the probe, with no further invocation and no message. On a running container
it issues no further invocation and prints the error that the container is running and
cannot be removed. On a stopped container it announces the removal and issues exactly one
further invocation, `docker rm Name`. In terms of mutating invocations: one `docker rm
Name` if the container is stopped, none otherwise. -/
theorem rm_by_state (rt : Runtime) (c : Container) (w : World) (ex : Bool)
    (c1 : Container) (w1 : World) (r : Bool) (c2 : Container) (w2 : World)
    (hex : c.exists rt w = (Result.ok (ex, c1), w1))
    (hr : c1.running rt w1 = (Result.ok (r, c2), w2)) :
    (ex = false → c.rm rt w = (Result.ok (), w1)) ∧
    (ex = true → r = true → c.rm rt w =
      (Result.ok (), { w2 with console := w2.console ++
        [Console.error ("Container " ++ c.Name ++ " is running and cannot be removed.\n")] })) ∧
    (ex = true → r = false → c.rm rt w =
      executeCommand rt "docker" ["rm", c.Name] { w2 with console := w2.console ++
        [Console.printf ("Removing container " ++ c.Name ++ " ... ")] }) ∧
    mutating (c.rm rt w).2.trace = mutating w.trace ++
      (if ex = true ∧ r = false then [Invocation.executeCommand "docker" ["rm", c.Name]]
       else []) ∧
    (ex = false → (c.rm rt w).2.console = w.console) := by
  obtain ⟨hn1, -, -, -, ht1, hk1⟩ := exists_frame_of_eq hex
  obtain ⟨hn2, -, -, -, ht2, -⟩ := running_frame_of_eq hr
  have habsent : ex = false → c.rm rt w = (Result.ok (), w1) := by
    intro h
    subst h
    simp [Container.rm, bind_eq, Prog.bind, hex, pure_eq]
  have hrunning : ex = true → r = true → c.rm rt w =
      (Result.ok (), { w2 with console := w2.console ++
        [Console.error ("Container " ++ c.Name ++ " is running and cannot be removed.\n")] }) := by
    intro h h'
    subst h h'
    simp [Container.rm, bind_eq, Prog.bind, hex, hr, say, hn2, hn1]
  have hstopped : ex = true → r = false → c.rm rt w =
      executeCommand rt "docker" ["rm", c.Name] { w2 with console := w2.console ++
        [Console.printf ("Removing container " ++ c.Name ++ " ... ")] } := by
    intro h h'
    subst h h'
    simp [Container.rm, bind_eq, Prog.bind, hex, hr, say, hn2, hn1]
  refine ⟨habsent, hrunning, hstopped, ?_, ?_⟩
  · cases ex with
    | false => simp [habsent rfl, ht1]
    | true =>
      cases r with
      | true => simp [hrunning rfl rfl, ht2, ht1]
      | false => simp [hstopped rfl rfl, executeCommand_mutating, ht2, ht1]
  · intro h
    rw [habsent h, hk1]

theorem rm_by_state_witness :
    mutating (oldContainer.rm sampleRuntime { }).2.trace =
      [Invocation.executeCommand "docker" ["rm", "old"]] :=
  (rm_by_state sampleRuntime oldContainer { } true _ _ false _ _ rfl rfl).2.2.2.1

/-- C10: `Container.stop` and `Container.kill` by observed state, where `r` is the answer of
the `running` probe. If the container is running, the call announces the command and
issues exactly one further invocation, `docker stop Name` or `docker kill Name`. If it
is not running (stopped or absent), the call ends after the probe: no further invocation,
no message, no panic. In terms of mutating invocations: exactly one if and only if the
container is running. -/
theorem stop_kill_by_state (rt : Runtime) (c : Container) (w : World) (r : Bool)
    (c1 : Container) (w1 : World) (hr : c.running rt w = (Result.ok (r, c1), w1)) :
    (r = true → c.stop rt w = executeCommand rt "docker" ["stop", c.Name]
      { w1 with console := w1.console ++
        [Console.printf ("Stopping container " ++ c.Name ++ " ... ")] }) ∧
    (r = true → c.kill rt w = executeCommand rt "docker" ["kill", c.Name]
      { w1 with console := w1.console ++
        [Console.printf ("Killing container " ++ c.Name ++ " ... ")] }) ∧
    (r = false → c.stop rt w = (Result.ok (), w1) ∧ c.kill rt w = (Result.ok (), w1)) ∧
    mutating (c.stop rt w).2.trace = mutating w.trace ++
      (if r = true then [Invocation.executeCommand "docker" ["stop", c.Name]] else []) ∧
    mutating (c.kill rt w).2.trace = mutating w.trace ++
      (if r = true then [Invocation.executeCommand "docker" ["kill", c.Name]] else []) ∧
    (r = false →
      (c.stop rt w).2.console = w.console ∧ (c.kill rt w).2.console = w.console) := by
  obtain ⟨hn1, -, -, -, ht1, hk1⟩ := running_frame_of_eq hr
  have hstop : r = true → c.stop rt w = executeCommand rt "docker" ["stop", c.Name]
      { w1 with console := w1.console ++
        [Console.printf ("Stopping container " ++ c.Name ++ " ... ")] } := by
    intro h
    subst h
    simp [Container.stop, bind_eq, Prog.bind, hr, say, hn1]
  have hkill : r = true → c.kill rt w = executeCommand rt "docker" ["kill", c.Name]
      { w1 with console := w1.console ++
        [Console.printf ("Killing container " ++ c.Name ++ " ... ")] } := by
    intro h
    subst h
    simp [Container.kill, bind_eq, Prog.bind, hr, say, hn1]
  have hidle : r = false →
      c.stop rt w = (Result.ok (), w1) ∧ c.kill rt w = (Result.ok (), w1) := by
    intro h
    subst h
    constructor
    · simp [Container.stop, bind_eq, Prog.bind, hr, pure_eq]
    · simp [Container.kill, bind_eq, Prog.bind, hr, pure_eq]
  refine ⟨hstop, hkill, hidle, ?_, ?_, ?_⟩
  · cases r with
    | true => simp [hstop rfl, executeCommand_mutating, ht1]
    | false => simp [(hidle rfl).1, ht1]
  · cases r with
    | true => simp [hkill rfl, executeCommand_mutating, ht1]
    | false => simp [(hidle rfl).2, ht1]
  · intro h
    rw [(hidle h).1, (hidle h).2]
    exact ⟨hk1, hk1⟩

theorem stop_kill_by_state_witness :
    mutating (webContainer.stop sampleRuntime { }).2.trace =
      [Invocation.executeCommand "docker" ["stop", "web"]] ∧
    oldContainer.kill sampleRuntime { } = (Result.ok (), { trace :=
      [Invocation.commandOutput "docker" ["inspect", "--format=\x7b\x7b.Id\x7d\x7d", "old"],
       Invocation.pipedCommandOutput
        [["docker", "ps", "--quiet", "--no-trunc"], ["grep", "-wF", "id-old"]]] }) :=
  ⟨(stop_kill_by_state sampleRuntime webContainer { } true _ _ rfl).2.2.2.1,
   ((stop_kill_by_state sampleRuntime oldContainer { } false _ _ rfl).2.2.1 rfl).2⟩

/-! ## Lifecycle: start and run -/

/-- Go `Container.start` on a container that is not skipped as manual, by the answers `ex` of
the `exists` probe and `r` of the `running` probe that follows it. -/
theorem start_of_probes (rt : Runtime) (c : Container) (w : World) (ex : Bool)
    (c1 : Container) (w1 : World) (r : Bool) (c2 : Container) (w2 : World)
    (hns : (!rt.isManualTargetting && c.Manual) = false)
    (hex : c.exists rt w = (Result.ok (ex, c1), w1))
    (hr : c1.running rt w1 = (Result.ok (r, c2), w2)) :
    (ex = false → c.start rt w = (Result.ok (), { w1 with console := w1.console ++
      [Console.error ("Container " ++ c.Name ++ " does not exist.\n")] })) ∧
    (ex = true → r = true → c.start rt w = (Result.ok (), w2)) ∧
    (ex = true → r = false → c.start rt w =
      executeCommand rt "docker" ["start", c.Name] { w2 with console := w2.console ++
        [Console.printf ("Starting container " ++ c.Name ++ " ... ")] }) := by
  obtain ⟨hn1, -, -, -, -, -⟩ := exists_frame_of_eq hex
  obtain ⟨hn2, -, -, -, -, -⟩ := running_frame_of_eq hr
  refine ⟨?_, ?_, ?_⟩
  · intro h
    subst h
    simp [Container.start, hns, bind_eq, Prog.bind, pure_eq, hex, say, hn1]
  · intro h h'
    subst h h'
    simp [Container.start, hns, bind_eq, Prog.bind, hex, hr, pure_eq]
  · intro h h'
    subst h h'
    simp [Container.start, hns, bind_eq, Prog.bind, pure_eq, hex, hr, say, hn1, hn2]

/-- Go `Container.start` issues at most one mutating invocation, and only `docker start
Name`. -/
theorem start_mutating (rt : Runtime) (c : Container) (w : World) :
    mutating (c.start rt w).2.trace = mutating w.trace ∨
    mutating (c.start rt w).2.trace =
      mutating w.trace ++ [Invocation.executeCommand "docker" ["start", c.Name]] := by
  by_cases hns : (!rt.isManualTargetting && c.Manual) = false
  · obtain ⟨ex, c1, w1, hex, -, ht1, -⟩ := exists_frame rt c w
    obtain ⟨r, c2, w2, hr, -, ht2, -⟩ := running_frame rt c1 w1
    obtain ⟨h1, h2, h3⟩ := start_of_probes rt c w ex c1 w1 r c2 w2 hns hex hr
    cases ex with
    | false => left; rw [h1 rfl]; exact ht1
    | true =>
      cases r with
      | true => left; rw [h2 rfl rfl]; exact ht2.trans ht1
      | false => right; rw [h3 rfl rfl, executeCommand_mutating]; simp [ht2, ht1]
  · left
    have hs : (!rt.isManualTargetting && c.Manual) = true := by simpa using hns
    simp [Container.start, hs, pure_eq]

theorem liftExcept_world {α : Type} (e : Except Fatal α) (w : World) :
    (liftExcept e w).2 = w := by
  cases e <;> rfl

theorem getSourceForVolumeFromMounts_mutating (rt : Runtime) (source volume : String)
    (w : World) :
    mutating (getSourceForVolumeFromMounts rt source volume w).2.trace = mutating w.trace := by
  simp only [getSourceForVolumeFromMounts, bind_eq, Prog.bind, commandOutput]
  generalize rt.commandOutput w.trace "docker"
    ["inspect", "--format=\x7b\x7bjson .Mounts\x7d\x7d", source] = out
  rcases out with ⟨output, err⟩
  cases err with
  | true => simp [throwFatal, mutating_commandOutput]
  | false =>
    cases hu : rt.unmarshalMounts output with
    | none => simp [throwFatal, mutating_commandOutput]
    | some mounts => simp [liftExcept_world, mutating_commandOutput]

theorem getSourceForVolume_mutating (rt : Runtime) (source volume : String) (w : World) :
    mutating (getSourceForVolume rt source volume w).2.trace = mutating w.trace := by
  simp only [getSourceForVolume, bind_eq, Prog.bind, commandOutput]
  split
  · rw [getSourceForVolumeFromMounts_mutating]
    simp [mutating_commandOutput]
  · simp [liftExcept_world, mutating_commandOutput]

theorem appendMappedVolumes_mutating (rt : Runtime) (l : List String) (args : List String)
    (w : World) :
    mutating (appendMappedVolumes rt args l w).2.trace = mutating w.trace := by
  induction l generalizing args w with
  | nil => rfl
  | cons a l ih =>
    simp only [appendMappedVolumes]
    generalize Split (rt.ExpandEnv a) ':' = x
    rcases x with _ | ⟨source, _ | ⟨volume, _ | ⟨dest, rest⟩⟩⟩
    · rfl
    · rfl
    · rfl
    · simp only [Prog.bind]
      have hs := getSourceForVolume_mutating rt source volume w
      cases hres : getSourceForVolume rt source volume w with
      | mk res w1 =>
        rw [hres] at hs
        cases res with
        | ok src => simp only; rw [ih]; exact hs
        | panic e => exact hs

theorem appendCommand_trace (args : List String) (v : Value) (w : World) :
    (appendCommand args v w).2.trace = w.trace := by
  cases v with
  | null => rfl
  | bool b => rfl
  | num n => rfl
  | str cmd => rfl
  | seq cmd =>
    simp only [appendCommand, Prog.bind]
    cases hs : commandStrings cmd <;> rfl

/-- The argument assembly issues no mutating invocation. -/
theorem runArgs_mutating (rt : Runtime) (c : Container) (w : World) :
    mutating (c.runArgs rt w).2.trace = mutating w.trace := by
  rw [runArgs_eq]
  have hm := appendMappedVolumes_mutating rt c.Run.MappedVolumesFrom [] w
  cases hmv : appendMappedVolumes rt [] c.Run.MappedVolumesFrom w with
  | mk res w1 =>
    rw [hmv] at hm
    cases res with
    | ok mv => simp only; rw [appendCommand_trace]; exact hm
    | panic e => exact hm

/-- The argument assembly reads the name, the image and the run parameters only. -/
theorem runArgs_congr (rt : Runtime) (c c1 : Container) (hn : c1.Name = c.Name)
    (hi : c1.Image = c.Image) (hr : c1.Run = c.Run) : c1.runArgs rt = c.runArgs rt := by
  funext w
  rw [runArgs_eq, runArgs_eq, hn, hi, hr]

/-- Go `Container.run` on a container that is not skipped as manual and that the `exists`
probe reports absent: the call announces the run, assembles the arguments and passes
them to `docker`. -/
theorem run_of_absent (rt : Runtime) (c : Container) (w : World) (c1 : Container)
    (w1 : World) (hns : (!rt.isManualTargetting && c.Manual) = false)
    (hex : c.exists rt w = (Result.ok (false, c1), w1)) :
    c.run rt w =
      match c.runArgs rt { w1 with console := w1.console ++
          [Console.printf ("Running container " ++ c.Name ++ " ... ")] } with
      | (Result.ok args, w2) => executeCommand rt "docker" args w2
      | (Result.panic e, w2) => (Result.panic e, w2) := by
  obtain ⟨hn1, -, hi1, hr1, -, -⟩ := exists_frame_of_eq hex
  simp only [Container.run, hns, bind_eq, Prog.bind, pure_eq, hex, say,
    runArgs_congr rt c c1 hn1 hi1 hr1, hn1, Bool.false_eq_true, if_false]
  cases c.runArgs rt { w1 with console := w1.console ++
      [Console.printf ("Running container " ++ c.Name ++ " ... ")] } with
  | mk res w2 => cases res <;> rfl

/-- Go `Container.run` on a container that is not skipped as manual and that the `exists`
probe reports existing: the call prints the notice, probes `running`, and starts the
container unless it is running. -/
theorem run_of_existing (rt : Runtime) (c : Container) (w : World) (c1 : Container)
    (w1 : World) (r : Bool) (c2 : Container) (w2 : World)
    (hns : (!rt.isManualTargetting && c.Manual) = false)
    (hex : c.exists rt w = (Result.ok (true, c1), w1))
    (hr : c1.running rt { w1 with console := w1.console ++ [Console.notice
      ("Container " ++ c.Name ++ " does already exist. Use --force to recreate.\n")] } =
        (Result.ok (r, c2), w2)) :
    c.run rt w = if r = true then (Result.ok (), w2) else c2.start rt w2 := by
  obtain ⟨hn1, -, -, -, -, -⟩ := exists_frame_of_eq hex
  rw [← hn1] at hr
  cases r with
  | true => simp [Container.run, hns, bind_eq, Prog.bind, pure_eq, hex, say, hr]
  | false => simp [Container.run, hns, bind_eq, Prog.bind, pure_eq, hex, say, hr]

theorem executeCommand_ok (rt : Runtime) (name : String) (args : List String) (w : World)
    (h : rt.executeCommand w.trace name args = true) :
    executeCommand rt name args w = (Result.ok (), (executeCommand rt name args w).2) := by
  simp [executeCommand, h]

theorem bind_run_skipped_right (rt : Runtime) (x : Prog Unit) (c : Container) (w : World)
    (hc : ∀ w1, c.run rt w1 = (Result.ok (), w1)) :
    (x >>= fun _ => c.run rt) w = x w := by
  rw [bind_eq]
  unfold Prog.bind
  cases hx : x w with
  | mk res w1 =>
    cases res with
    | ok a => simp [hc]
    | panic e => rfl

/-- C8: a container flagged manual, when manual targetting is not active, is skipped by
`Container.run` and by `Container.start`: the call returns at once, with no invocation
(neither a probe nor a mutating command), no message and no panic. Consequently running
a container `db` and the manual container one after the other, in either order, is the
same as running `db` alone; and when `db` is absent and its arguments assemble to
`args`, the mutating invocations of the two runs are exactly `docker args`, the
create+start of `db`. -/
theorem manual_skipped (rt : Runtime) (c : Container) (w : World)
    (hm : c.Manual = true) (ht : rt.isManualTargetting = false) :
    c.run rt w = (Result.ok (), w) ∧ c.start rt w = (Result.ok (), w) ∧
    (∀ db : Container, (db.run rt >>= fun _ => c.run rt) w = db.run rt w) ∧
    (∀ db : Container, (c.run rt >>= fun _ => db.run rt) w = db.run rt w) ∧
    (∀ (db c1 : Container) (w1 w2 : World) (args : List String),
      db.Manual = false → db.exists rt w = (Result.ok (false, c1), w1) →
      db.runArgs rt (w1.printed (Console.printf ("Running container " ++ db.Name ++ " ... ")))
        = (Result.ok args, w2) →
      mutating ((db.run rt >>= fun _ => c.run rt) w).2.trace =
        mutating w.trace ++ [Invocation.executeCommand "docker" args]) := by
  have hrun : ∀ w1, c.run rt w1 = (Result.ok (), w1) := by
    intro w1
    simp [Container.run, hm, ht, pure_eq]
  have hstart : c.start rt w = (Result.ok (), w) := by
    simp [Container.start, hm, ht, pure_eq]
  refine ⟨hrun w, hstart, fun db => bind_run_skipped_right rt _ c w hrun, ?_, ?_⟩
  · intro db
    rw [bind_eq]
    simp [Prog.bind, hrun w]
  · intro db c1 w1 w2 args hdb hex hargs
    rw [bind_run_skipped_right rt _ c w hrun,
      run_of_absent rt db w c1 w1 (by simp [hdb]) hex]
    simp only [World.printed] at hargs
    rw [hargs]
    simp only
    rw [executeCommand_mutating]
    have h1 := runArgs_mutating rt db { w1 with console := w1.console ++
      [Console.printf ("Running container " ++ db.Name ++ " ... ")] }
    rw [hargs] at h1
    simp only at h1
    rw [h1, (exists_frame_of_eq hex).2.2.2.2.1]

theorem manual_skipped_witness :
    manualContainer.run emptyRuntime { } = (Result.ok (), { }) ∧
    mutating ((dbContainer.run emptyRuntime >>= fun _ =>
      manualContainer.run emptyRuntime) { }).2.trace =
        [Invocation.executeCommand "docker" ["run", "--name", "db", "postgres"]] :=
  ⟨(manual_skipped emptyRuntime manualContainer { } rfl rfl).1,
   (manual_skipped emptyRuntime manualContainer { } rfl rfl).2.2.2.2
      dbContainer _ _ _ _ rfl rfl rfl⟩

/-- C9, as stated, fails: the absent container `db` whose command sequence contains the
number 42 is not skipped as manual, and `Container.run` panics during the argument
assembly without issuing `docker run` (or any other mutating invocation). -/
theorem run_absent_without_create :
    (!emptyRuntime.isManualTargetting && badCommand.Manual) = false ∧
    (badCommand.exists emptyRuntime { }).1.toOption.map Prod.fst = some false ∧
    (badCommand.run emptyRuntime { }).1 = Result.panic Fatal.typeAssertion ∧
    mutating (badCommand.run emptyRuntime { }).2.trace = [] := by
  refine ⟨by decide, by decide, by decide, by decide⟩

/-- C9, amended: `Container.run` on a container that is not skipped as manual, by observed
state, where `ex` is the answer of the `exists` probe. If the container is absent and the
argument assembly succeeds with `args`, the call issues exactly one mutating invocation,
the create+start `docker args`; if the assembly panics, so does the call, and it issues
no mutating invocation. If the container exists, the call never issues a create+start:
its mutating invocations are none, or the single `docker start Name`. If it is running,
the call issues no mutating invocation. If it is stopped, for the `running` probe of
`run` and for the two probes that `start` repeats, the call issues exactly one mutating
invocation, `docker start Name`. Hence, when the container is absent, the assembly
succeeds, the create+start succeeds and the probes of a second call find the container
running, two successive calls issue exactly one mutating invocation in total, the
create+start. -/
theorem run_by_state (rt : Runtime) (c : Container) (w : World) (ex : Bool)
    (c1 : Container) (w1 : World)
    (hns : (!rt.isManualTargetting && c.Manual) = false)
    (hex : c.exists rt w = (Result.ok (ex, c1), w1)) :
    (ex = false → ∀ args w2,
      c.runArgs rt (w1.printed (Console.printf ("Running container " ++ c.Name ++ " ... ")))
        = (Result.ok args, w2) →
      c.run rt w = executeCommand rt "docker" args w2 ∧
      mutating (c.run rt w).2.trace =
        mutating w.trace ++ [Invocation.executeCommand "docker" args]) ∧
    (ex = false → ∀ e w2,
      c.runArgs rt (w1.printed (Console.printf ("Running container " ++ c.Name ++ " ... ")))
        = (Result.panic e, w2) →
      c.run rt w = (Result.panic e, w2) ∧
      mutating (c.run rt w).2.trace = mutating w.trace) ∧
    (ex = true →
      mutating (c.run rt w).2.trace = mutating w.trace ∨
      mutating (c.run rt w).2.trace =
        mutating w.trace ++ [Invocation.executeCommand "docker" ["start", c.Name]]) ∧
    (ex = true → ∀ c2 w2,
      c1.running rt (w1.printed (Console.notice
        ("Container " ++ c.Name ++ " does already exist. Use --force to recreate.\n")))
        = (Result.ok (true, c2), w2) →
      c.run rt w = (Result.ok (), w2) ∧
      mutating (c.run rt w).2.trace = mutating w.trace) ∧
    (ex = true → ∀ c2 w2 c3 w3 c4 w4,
      c1.running rt (w1.printed (Console.notice
        ("Container " ++ c.Name ++ " does already exist. Use --force to recreate.\n")))
        = (Result.ok (false, c2), w2) →
      c2.exists rt w2 = (Result.ok (true, c3), w3) →
      c3.running rt w3 = (Result.ok (false, c4), w4) →
      c.run rt w = executeCommand rt "docker" ["start", c.Name]
        (w4.printed (Console.printf ("Starting container " ++ c.Name ++ " ... "))) ∧
      mutating (c.run rt w).2.trace =
        mutating w.trace ++ [Invocation.executeCommand "docker" ["start", c.Name]]) ∧
    (ex = false → ∀ args w2 c3 w4 c4 w5,
      c.runArgs rt (w1.printed (Console.printf ("Running container " ++ c.Name ++ " ... ")))
        = (Result.ok args, w2) →
      rt.executeCommand w2.trace "docker" args = true →
      c.exists rt (executeCommand rt "docker" args w2).2 = (Result.ok (true, c3), w4) →
      c3.running rt (w4.printed (Console.notice
        ("Container " ++ c.Name ++ " does already exist. Use --force to recreate.\n")))
        = (Result.ok (true, c4), w5) →
      (c.run rt >>= fun _ => c.run rt) w = (Result.ok (), w5) ∧
      mutating ((c.run rt >>= fun _ => c.run rt) w).2.trace =
        mutating w.trace ++ [Invocation.executeCommand "docker" args]) := by
  obtain ⟨hn1, hm1, -, -, ht1, -⟩ := exists_frame_of_eq hex
  have habsent : ex = false → ∀ args w2,
      c.runArgs rt (w1.printed (Console.printf ("Running container " ++ c.Name ++ " ... ")))
        = (Result.ok args, w2) →
      c.run rt w = executeCommand rt "docker" args w2 ∧
      mutating (c.run rt w).2.trace =
        mutating w.trace ++ [Invocation.executeCommand "docker" args] := by
    intro h args w2 hargs
    subst h
    have hrun : c.run rt w = executeCommand rt "docker" args w2 := by
      rw [run_of_absent rt c w c1 w1 hns hex]
      simp only [World.printed] at hargs
      rw [hargs]
    refine ⟨hrun, ?_⟩
    have h1 := runArgs_mutating rt c
      (w1.printed (Console.printf ("Running container " ++ c.Name ++ " ... ")))
    rw [hargs] at h1
    rw [hrun, executeCommand_mutating, h1]
    simp [World.printed, ht1]
  have hrunning : ex = true → ∀ c2 w2,
      c1.running rt (w1.printed (Console.notice
        ("Container " ++ c.Name ++ " does already exist. Use --force to recreate.\n")))
        = (Result.ok (true, c2), w2) →
      c.run rt w = (Result.ok (), w2) ∧
      mutating (c.run rt w).2.trace = mutating w.trace := by
    intro h c2 w2 hr
    subst h
    have hrun := run_of_existing rt c w c1 w1 true c2 w2 hns hex hr
    simp only [if_true] at hrun
    refine ⟨hrun, ?_⟩
    rw [hrun, (running_frame_of_eq hr).2.2.2.2.1]
    simp [World.printed, ht1]
  refine ⟨habsent, ?_, ?_, hrunning, ?_, ?_⟩
  · intro h e w2 hargs
    subst h
    have hrun : c.run rt w = (Result.panic e, w2) := by
      rw [run_of_absent rt c w c1 w1 hns hex]
      simp only [World.printed] at hargs
      rw [hargs]
    refine ⟨hrun, ?_⟩
    have h1 := runArgs_mutating rt c
      (w1.printed (Console.printf ("Running container " ++ c.Name ++ " ... ")))
    rw [hargs] at h1
    rw [hrun]
    simpa [World.printed, ht1] using h1
  · intro h
    subst h
    obtain ⟨r, c2, w2, hr, -, ht2, -⟩ := running_frame rt c1 (w1.printed (Console.notice
      ("Container " ++ c.Name ++ " does already exist. Use --force to recreate.\n")))
    have hn2 := (running_frame_of_eq hr).1
    have hw2 : mutating w2.trace = mutating w.trace := by
      rw [ht2]
      simp [World.printed, ht1]
    have hrun := run_of_existing rt c w c1 w1 r c2 w2 hns hex hr
    cases r with
    | true =>
      left
      simp only [if_true] at hrun
      rw [hrun, hw2]
    | false =>
      simp only [Bool.false_eq_true, if_false] at hrun
      rw [hrun, ← hw2, ← hn1, ← hn2]
      exact start_mutating rt c2 w2
  · intro h c2 w2 c3 w3 c4 w4 hr hex2 hr2
    subst h
    obtain ⟨hn2, hm2, -, -, ht2, -⟩ := running_frame_of_eq hr
    have hns2 : (!rt.isManualTargetting && c2.Manual) = false := by
      rw [hm2, hm1]; exact hns
    have hrun := run_of_existing rt c w c1 w1 false c2 w2 hns hex hr
    simp only [Bool.false_eq_true, if_false] at hrun
    have hstart := (start_of_probes rt c2 w2 true c3 w3 false c4 w4 hns2 hex2 hr2).2.2 rfl rfl
    rw [hn2, hn1] at hstart
    have hrun2 : c.run rt w = executeCommand rt "docker" ["start", c.Name]
        (w4.printed (Console.printf ("Starting container " ++ c.Name ++ " ... "))) := by
      rw [hrun, hstart]
      rfl
    refine ⟨hrun2, ?_⟩
    rw [hrun2, executeCommand_mutating]
    simp [World.printed, (running_frame_of_eq hr2).2.2.2.2.1,
      (exists_frame_of_eq hex2).2.2.2.2.1, ht2, ht1]
  · intro h args w2 c3 w4 c4 w5 hargs hok hex2 hr2
    obtain ⟨hrun1, hmut1⟩ := habsent h args w2 hargs
    have hfirst : c.run rt w = (Result.ok (), (executeCommand rt "docker" args w2).2) := by
      rw [hrun1]
      exact executeCommand_ok rt "docker" args w2 hok
    have hsecond := run_of_existing rt c (executeCommand rt "docker" args w2).2 c3 w4 true
      c4 w5 hns hex2 hr2
    simp only [if_true] at hsecond
    have hboth : (c.run rt >>= fun _ => c.run rt) w = (Result.ok (), w5) := by
      rw [bind_eq]
      unfold Prog.bind
      rw [hfirst]
      exact hsecond
    refine ⟨hboth, ?_⟩
    rw [hboth]
    simp only
    rw [(running_frame_of_eq hr2).2.2.2.2.1]
    simp only [World.printed]
    rw [(exists_frame_of_eq hex2).2.2.2.2.1, ← hrun1, hmut1]

theorem run_by_state_witness :
    mutating ((dbContainer.run emptyRuntime >>= fun _ =>
      dbContainer.run emptyRuntime) { }).2.trace =
        [Invocation.executeCommand "docker" ["run", "--name", "db", "postgres"]] ∧
    mutating (oldContainer.run sampleRuntime { }).2.trace =
        [Invocation.executeCommand "docker" ["start", "old"]] ∧
    mutating (webContainer.run sampleRuntime { }).2.trace = [] :=
  ⟨((run_by_state emptyRuntime dbContainer { } false _ _ rfl rfl).2.2.2.2.2 rfl
      _ _ _ _ _ _ rfl rfl rfl rfl).2,
   ((run_by_state sampleRuntime oldContainer { } true _ _ rfl rfl).2.2.2.2.1 rfl
      _ _ _ _ _ _ rfl rfl rfl).2,
   ((run_by_state sampleRuntime webContainer { } true _ _ rfl rfl).2.2.2.1 rfl
      _ _ rfl).2⟩

/-- C11, as stated, fails: `Container.start` on the absent container `db`, which is not
skipped as manual, prints the error that the container does not exist and returns
normally; it does not panic, so the error is not fatal. -/
theorem start_absent_is_not_fatal :
    (!emptyRuntime.isManualTargetting && dbContainer.Manual) = false ∧
    (dbContainer.exists emptyRuntime { }).1.toOption.map Prod.fst = some false ∧
    (dbContainer.start emptyRuntime { }).1 = Result.ok () ∧
    (dbContainer.start emptyRuntime { }).2.console =
      [Console.error "Container db does not exist.\n"] ∧
    mutating (dbContainer.start emptyRuntime { }).2.trace = [] := by
  refine ⟨by decide, by decide, by decide, by decide, by decide⟩

/-- C11, amended: `Container.start` on a container that is not skipped as manual, by
observed state, where `ex` is the answer of the `exists` probe and `r` the answer of the
`running` probe that follows it. On a stopped container the call announces the start and
issues exactly one mutating invocation, `docker start Name`. On a running container it
ends after the probes: no mutating invocation, no message, no panic. On an absent
container it issues no mutating invocation, prints the error that the container does not
exist, and returns normally. -/
theorem start_by_state (rt : Runtime) (c : Container) (w : World) (ex : Bool)
    (c1 : Container) (w1 : World) (r : Bool) (c2 : Container) (w2 : World)
    (hns : (!rt.isManualTargetting && c.Manual) = false)
    (hex : c.exists rt w = (Result.ok (ex, c1), w1))
    (hr : c1.running rt w1 = (Result.ok (r, c2), w2)) :
    (ex = true → r = false →
      c.start rt w = executeCommand rt "docker" ["start", c.Name]
        (w2.printed (Console.printf ("Starting container " ++ c.Name ++ " ... "))) ∧
      mutating (c.start rt w).2.trace =
        mutating w.trace ++ [Invocation.executeCommand "docker" ["start", c.Name]]) ∧
    (ex = true → r = true →
      c.start rt w = (Result.ok (), w2) ∧
      mutating (c.start rt w).2.trace = mutating w.trace ∧
      (c.start rt w).2.console = w.console) ∧
    (ex = false →
      c.start rt w = (Result.ok (),
        w1.printed (Console.error ("Container " ++ c.Name ++ " does not exist.\n"))) ∧
      mutating (c.start rt w).2.trace = mutating w.trace ∧
      (c.start rt w).2.console =
        w.console ++ [Console.error ("Container " ++ c.Name ++ " does not exist.\n")]) := by
  obtain ⟨-, -, -, -, ht1, hk1⟩ := exists_frame_of_eq hex
  obtain ⟨-, -, -, -, ht2, hk2⟩ := running_frame_of_eq hr
  obtain ⟨habsent, hrunning, hstopped⟩ := start_of_probes rt c w ex c1 w1 r c2 w2 hns hex hr
  refine ⟨?_, ?_, ?_⟩
  · intro h h'
    refine ⟨hstopped h h', ?_⟩
    rw [hstopped h h', executeCommand_mutating]
    simp [ht2, ht1]
  · intro h h'
    rw [hrunning h h']
    exact ⟨rfl, ht2.trans ht1, hk2.trans hk1⟩
  · intro h
    rw [habsent h]
    refine ⟨rfl, ?_, ?_⟩
    · simpa using ht1
    · simp [hk1]

theorem start_by_state_witness :
    mutating (oldContainer.start sampleRuntime { }).2.trace =
      [Invocation.executeCommand "docker" ["start", "old"]] ∧
    mutating (webContainer.start sampleRuntime { }).2.trace = [] ∧
    (dbContainer.start sampleRuntime { }).2.console =
      [Console.error "Container db does not exist.\n"] :=
  ⟨((start_by_state sampleRuntime oldContainer { } true _ _ false _ _ rfl rfl rfl).1
      rfl rfl).2,
   ((start_by_state sampleRuntime webContainer { } true _ _ true _ _ rfl rfl rfl).2.1
      rfl rfl).2.1,
   ((start_by_state sampleRuntime dbContainer { } false _ _ false _ _ rfl rfl rfl).2.2
      rfl).2.2⟩

/-! ## Images: provision and pull -/

/-- Go `imageExists` never panics, prints nothing and issues no mutating invocation. -/
theorem imageExists_frame (rt : Runtime) (c : Container) (w : World) :
    ∃ e w1, c.imageExists rt w = (Result.ok e, w1) ∧
      mutating w1.trace = mutating w.trace ∧ w1.console = w.console := by
  unfold Container.imageExists
  simp only [bind_eq, Prog.bind, pipedCommandOutput]
  cases hp : rt.pipedCommandOutput w.trace
      [["docker", "images", "--no-trunc"], ["grep", "-wF", c.Image]] with
  | none =>
    exact ⟨false, { w with trace := w.trace ++ [Invocation.pipedCommandOutput
        [["docker", "images", "--no-trunc"], ["grep", "-wF", c.Image]]] },
      by simp [pure_eq], mutating_pipedCommandOutput _ _, rfl⟩
  | some result =>
    exact ⟨decide (0 < result.length), { w with trace := w.trace ++
        [Invocation.pipedCommandOutput
          [["docker", "images", "--no-trunc"], ["grep", "-wF", c.Image]]] },
      by simp [pure_eq], mutating_pipedCommandOutput _ _, rfl⟩

theorem imageExists_frame_of_eq {rt : Runtime} {c : Container} {w w1 : World} {e : Bool}
    (h : c.imageExists rt w = (Result.ok e, w1)) :
    mutating w1.trace = mutating w.trace ∧ w1.console = w.console := by
  obtain ⟨e2, w2, h2, ht, hk⟩ := imageExists_frame rt c w
  rw [h] at h2
  simp only [Prod.mk.injEq, Result.ok.injEq] at h2
  obtain ⟨-, rfl⟩ := h2
  exact ⟨ht, hk⟩

/-- The condition of `provision` and `pull`: with `force` it is true and no probe runs;
without `force` it is the negation of the answer of the image probe. -/
theorem forceOrMissing_eq (rt : Runtime) (c : Container) (w : World) (force e : Bool)
    (w1 : World) (hprobe : c.imageExists rt w = (Result.ok e, w1)) :
    c.forceOrMissing rt force w =
      (Result.ok (force || !e), if force = true then w else w1) := by
  cases force with
  | true => simp [Container.forceOrMissing, pure_eq]
  | false => simp [Container.forceOrMissing, bind_eq, Prog.bind, hprobe, pure_eq]

/-- C12: `Container.provision` and `Container.pull` by observed state, where `e` is the
answer of the image probe (which runs only without `force`). If `force` is set or the
image does not exist, `provision` announces and issues exactly one mutating invocation:
`docker build --rm --tag=Image` with the expanded Dockerfile location if `Dockerfile` is
not empty, `docker pull Image` otherwise; `pull` issues `docker pull Image`. If `force`
is not set and the image exists, both print a notice and issue no mutating invocation. -/
theorem provision_pull_by_state (rt : Runtime) (c : Container) (w : World)
    (force e : Bool) (w1 : World) (hprobe : c.imageExists rt w = (Result.ok e, w1)) :
    (force = true ∨ e = false →
      c.provision rt force w =
        (if 0 < c.Dockerfile.length then
          executeCommand rt "docker"
            ["build", "--rm", "--tag=" ++ c.Image, rt.ExpandEnv c.Dockerfile]
            ((if force = true then w else w1).printed
              (Console.printf ("Building image " ++ c.Image ++ " ... ")))
        else
          executeCommand rt "docker" ["pull", c.Image]
            ((if force = true then w else w1).printed
              (Console.printf ("Pulling image " ++ c.Image ++ " ... ")))) ∧
      c.pull rt force w =
        executeCommand rt "docker" ["pull", c.Image]
          ((if force = true then w else w1).printed
            (Console.printf ("Pulling image " ++ c.Image ++ " ... ")))) ∧
    (force = false → e = true →
      c.provision rt force w = (Result.ok (), w1.printed (Console.notice
        ("Image " ++ c.Image ++ " does already exist. Use --force to recreate.\n"))) ∧
      c.pull rt force w = (Result.ok (), w1.printed (Console.notice
        ("Image " ++ c.Image ++ " does already exist. Use --force to re-pull.\n")))) ∧
    mutating (c.provision rt force w).2.trace = mutating w.trace ++
      (if force = true ∨ e = false then
        [Invocation.executeCommand "docker"
          (if 0 < c.Dockerfile.length then
            ["build", "--rm", "--tag=" ++ c.Image, rt.ExpandEnv c.Dockerfile]
          else ["pull", c.Image])]
      else []) ∧
    mutating (c.pull rt force w).2.trace = mutating w.trace ++
      (if force = true ∨ e = false then
        [Invocation.executeCommand "docker" ["pull", c.Image]]
      else []) := by
  obtain ⟨ht1, -⟩ := imageExists_frame_of_eq hprobe
  have hcond := forceOrMissing_eq rt c w force e w1 hprobe
  have hw0 : mutating (if force = true then w else w1).trace = mutating w.trace := by
    cases force <;> simp [ht1]
  have hfetch : force = true ∨ e = false →
      c.provision rt force w =
        (if 0 < c.Dockerfile.length then
          executeCommand rt "docker"
            ["build", "--rm", "--tag=" ++ c.Image, rt.ExpandEnv c.Dockerfile]
            ((if force = true then w else w1).printed
              (Console.printf ("Building image " ++ c.Image ++ " ... ")))
        else
          executeCommand rt "docker" ["pull", c.Image]
            ((if force = true then w else w1).printed
              (Console.printf ("Pulling image " ++ c.Image ++ " ... ")))) ∧
      c.pull rt force w =
        executeCommand rt "docker" ["pull", c.Image]
          ((if force = true then w else w1).printed
            (Console.printf ("Pulling image " ++ c.Image ++ " ... "))) := by
    intro h
    have hb : (force || !e) = true := by
      rcases h with h | h <;> simp [h]
    constructor
    · by_cases hd : 0 < c.Dockerfile.length
      · simp [Container.provision, bind_eq, Prog.bind, hcond, hb, hd, Container.buildImage,
          say, World.printed]
      · simp [Container.provision, bind_eq, Prog.bind, hcond, hb, hd, Container.pullImage,
          say, World.printed]
    · simp [Container.pull, bind_eq, Prog.bind, hcond, hb, Container.pullImage, say,
        World.printed]
  have hskip : force = false → e = true →
      c.provision rt force w = (Result.ok (), w1.printed (Console.notice
        ("Image " ++ c.Image ++ " does already exist. Use --force to recreate.\n"))) ∧
      c.pull rt force w = (Result.ok (), w1.printed (Console.notice
        ("Image " ++ c.Image ++ " does already exist. Use --force to re-pull.\n"))) := by
    intro h h'
    subst h h'
    constructor
    · simp [Container.provision, bind_eq, Prog.bind, hcond, say, World.printed]
    · simp [Container.pull, bind_eq, Prog.bind, hcond, say, World.printed]
  refine ⟨hfetch, hskip, ?_, ?_⟩
  · by_cases h : force = true ∨ e = false
    · rw [(hfetch h).1]
      by_cases hd : 0 < c.Dockerfile.length
      · simp only [hd, h, if_true]
        rw [executeCommand_mutating]
        simp [World.printed, hw0]
      · simp only [hd, h, if_true, if_false]
        rw [executeCommand_mutating]
        simp [World.printed, hw0]
    · have hf : force = false := by
        cases force
        · rfl
        · exact absurd (Or.inl rfl) h
      have he : e = true := by
        cases e
        · exact absurd (Or.inr rfl) h
        · rfl
      rw [(hskip hf he).1]
      simp [World.printed, h, ht1]
  · by_cases h : force = true ∨ e = false
    · rw [(hfetch h).2, executeCommand_mutating]
      simp [World.printed, hw0, h]
    · have hf : force = false := by
        cases force
        · rfl
        · exact absurd (Or.inl rfl) h
      have he : e = true := by
        cases e
        · exact absurd (Or.inr rfl) h
        · rfl
      rw [(hskip hf he).2]
      simp [World.printed, h, ht1]

theorem provision_pull_by_state_witness :
    mutating (builtContainer.provision imageRuntime true { }).2.trace =
      [Invocation.executeCommand "docker" ["build", "--rm", "--tag=img", "/src/app"]] ∧
    mutating (builtContainer.provision imageRuntime false { }).2.trace = [] ∧
    mutating (pulledContainer.provision imageRuntime false { }).2.trace =
      [Invocation.executeCommand "docker" ["pull", "fresh"]] ∧
    mutating (builtContainer.pull imageRuntime true { }).2.trace =
      [Invocation.executeCommand "docker" ["pull", "img"]] :=
  ⟨(provision_pull_by_state imageRuntime builtContainer { } true true _ rfl).2.2.1,
   (provision_pull_by_state imageRuntime builtContainer { } false true _ rfl).2.2.1,
   (provision_pull_by_state imageRuntime pulledContainer { } false false _ rfl).2.2.1,
   (provision_pull_by_state imageRuntime builtContainer { } true true _ rfl).2.2.2⟩

/-! ## Argument assembly: network mode -/

/-- The `Command` switch appends to its accumulator and is otherwise independent of
it. -/
theorem appendCommand_eq (args : List String) (v : Value) (w : World) :
    appendCommand args v w =
      match appendCommand [] v w with
      | (Result.ok t, w1) => (Result.ok (args ++ t), w1)
      | (Result.panic e, w1) => (Result.panic e, w1) := by
  cases v with
  | null => simp [appendCommand, Prog.pure]
  | bool b => simp [appendCommand, Prog.pure, Prog.bind, say]
  | num n => simp [appendCommand, Prog.pure, Prog.bind, say]
  | str cmd =>
    by_cases hc : 0 < cmd.length <;> simp [appendCommand, Prog.pure, hc]
  | seq cmd =>
    simp only [appendCommand, Prog.bind]
    cases hs : commandStrings cmd with
    | ok cmds => simp [liftExcept, Prog.pure]
    | error e => simp [liftExcept, throwFatal]

theorem flagsBeforeMapped_net (rt : Runtime) (r : RunParameters) :
    flagsBeforeMapped rt r =
      (r.RawAddHost.flatMap fun e => ["--add-host", rt.ExpandEnv e]) ++
      (if r.Net rt ≠ "bridge" then ["--net", r.Net rt] else []) ++ flagsAfterNet rt r := by
  simp only [flagsBeforeMapped, flagsAfterNet, List.append_assoc]

theorem Net_withoutNet (rt : Runtime) (r : RunParameters) :
    r.withoutNet.Net rt = "bridge" := rfl

/-- C13: the network mode `Net()` is `bridge` for an empty `RawNet` and the environment
expansion of `RawNet` otherwise. A successfully assembled argument list is `run`, the
add-host pairs, the block of the network mode, and a remainder `post`; the block is the
pair `--net Net()` if `Net()` differs from `bridge` and empty if it is `bridge`; and the
same container with the network mode left empty is assembled to the same list without
the block, so the block is what the network-mode field contributes. -/
theorem net_flag (rt : Runtime) (c : Container) (w : World) (args : List String)
    (w1 : World) (h : c.runArgs rt w = (Result.ok args, w1)) :
    c.Run.Net rt = (if c.Run.RawNet.length = 0 then "bridge" else rt.ExpandEnv c.Run.RawNet) ∧
    ∃ post,
      args = ["run"] ++ (c.Run.RawAddHost.flatMap fun e => ["--add-host", rt.ExpandEnv e]) ++
        (if c.Run.Net rt ≠ "bridge" then ["--net", c.Run.Net rt] else []) ++ post ∧
      ({ c with Run := c.Run.withoutNet } : Container).runArgs rt w =
        (Result.ok (["run"] ++
          (c.Run.RawAddHost.flatMap fun e => ["--add-host", rt.ExpandEnv e]) ++ post), w1) := by
  refine ⟨rfl, ?_⟩
  rw [runArgs_eq] at h
  have h2 := runArgs_eq rt { c with Run := c.Run.withoutNet } w
  have hm : c.Run.withoutNet.MappedVolumesFrom = c.Run.MappedVolumesFrom := rfl
  have ha : flagsAfterMapped rt c.Run.withoutNet = flagsAfterMapped rt c.Run := rfl
  have hb : flagsAfterNet rt c.Run.withoutNet = flagsAfterNet rt c.Run := rfl
  have hc : c.Run.withoutNet.Command = c.Run.Command := rfl
  have hr : c.Run.withoutNet.RawAddHost = c.Run.RawAddHost := rfl
  simp only [hm, ha, hc, flagsBeforeMapped_net, Net_withoutNet, hb, hr] at h2
  simp only [flagsBeforeMapped_net] at h
  cases hmv : appendMappedVolumes rt [] c.Run.MappedVolumesFrom w with
  | mk res w2 =>
    rw [hmv] at h h2
    cases res with
    | panic e => simp at h
    | ok mv =>
      simp only at h h2
      have hargs := appendCommand_ok _ _ _ _ _ h
      refine ⟨flagsAfterNet rt c.Run ++ mv ++ flagsAfterMapped rt c.Run ++
        ["--name", c.Name, c.Image] ++ commandTokens c.Run.Command, ?_, ?_⟩
      · rw [hargs]
        simp only [List.append_assoc]
      · rw [h2]
        rw [appendCommand_eq] at h ⊢
        cases hcmd : appendCommand [] c.Run.Command w2 with
        | mk res3 w3 =>
          rw [hcmd] at h
          cases res3 with
          | panic e => simp at h
          | ok t =>
            simp only [Prod.mk.injEq, Result.ok.injEq] at h
            have ht : t = commandTokens c.Run.Command := by
              have := appendCommand_ok [] _ _ _ _ hcmd
              simpa using this
            simp [h.2, ht, List.append_assoc]

theorem net_flag_witness :
    ∃ post,
      ["run", "--add-host", "db:10.0.0.2", "--net", "host", "--detach", "--name", "app",
        "img"] =
        ["run"] ++
          (hostNetwork.Run.RawAddHost.flatMap fun e =>
            ["--add-host", sampleRuntime.ExpandEnv e]) ++
          (if hostNetwork.Run.Net sampleRuntime ≠ "bridge" then
            ["--net", hostNetwork.Run.Net sampleRuntime] else []) ++ post ∧
      ({ hostNetwork with Run := hostNetwork.Run.withoutNet } : Container).runArgs
          sampleRuntime { } =
        (Result.ok (["run"] ++
          (hostNetwork.Run.RawAddHost.flatMap fun e =>
            ["--add-host", sampleRuntime.ExpandEnv e]) ++ post), { }) :=
  (net_flag sampleRuntime hostNetwork { }
    ["run", "--add-host", "db:10.0.0.2", "--net", "host", "--detach", "--name", "app", "img"]
    { } (by decide)).2

/-! ## Volume source resolver: the legacy format -/

/-- The legacy scan over rendered entries returns the host path of the first binding with
the requested container path. -/
theorem scanVolumes_rendered (o d : String) (bindings : List (String × String))
    (h : ∀ b ∈ bindings, ':' ∉ b.1.data ∧ ':' ∉ b.2.data) :
    scanVolumes o d (bindings.map fun b => b.1 ++ ":" ++ b.2) =
      match bindings.find? (fun b => b.1 = d) with
      | some b => Except.ok b.2
      | none => Except.error (Fatal.cannotFindVolume d o) := by
  induction bindings with
  | nil => rfl
  | cons b t ih =>
    have hb := h b (List.mem_cons_self _ _)
    simp only [List.map_cons, scanVolumes, Split_pair _ _ hb.1 hb.2, List.find?_cons]
    by_cases hd : b.1 = d
    · simp [hd]
    · simp only [hd, if_false, decide_False]
      exact ih (fun x hx => h x (List.mem_cons_of_mem _ hx))

/-- The legacy parser on the rendering of bindings without space, colon and line break:
an index panic for the empty map, and otherwise the host path of the first binding with
the requested container path, or the panic that the volume cannot be found. -/
theorem getSourceForVolumeFromVolumes_rendered (bindings : List (String × String))
    (d : String) (hsafe : ∀ b ∈ bindings, legacySafe b.1 ∧ legacySafe b.2) :
    getSourceForVolumeFromVolumes (renderVolumes bindings) d =
      if bindings = [] then Except.error Fatal.indexOutOfRange
      else match bindings.find? (fun b => b.1 = d) with
        | some b => Except.ok b.2
        | none => Except.error (Fatal.cannotFindVolume d (renderVolumes bindings)) := by
  have hf := findInner_renderVolumes bindings
    (fun b hb => ⟨(hsafe b hb).1.2.2, (hsafe b hb).2.2.2⟩)
  simp only [getSourceForVolumeFromVolumes, hf]
  by_cases hne : bindings = []
  · subst hne
    rfl
  · have hsp :
        Split (String.mk (Join (bindings.map fun b => b.1 ++ ":" ++ b.2) " ").data) ' '
          = bindings.map fun b => b.1 ++ ":" ++ b.2 := by
      apply Split_Join ' ' _ (by simpa using hne)
      intro x hx
      simp only [List.mem_map] at hx
      obtain ⟨b, hb, rfl⟩ := hx
      simp only [String.data_append, List.mem_append, not_or]
      exact ⟨⟨(hsafe b hb).1.1, by decide⟩, (hsafe b hb).2.1⟩
    rw [hsp, if_neg hne]
    exact scanVolumes_rendered _ d bindings
      (fun b hb => ⟨(hsafe b hb).1.2.1, (hsafe b hb).2.2.1⟩)

theorem find?_first_match {α : Type} (p : α → Bool) (pre : List α) (b : α) (post : List α)
    (hb : p b = true) (hpre : ∀ a ∈ pre, p a = false) :
    (pre ++ b :: post).find? p = some b := by
  induction pre with
  | nil => simp [List.find?_cons, hb]
  | cons a t ih =>
    have ha : p a = false := hpre a (List.mem_cons_self _ _)
    simp only [List.cons_append, List.find?_cons, ha]
    exact ih (fun x hx => hpre x (List.mem_cons_of_mem _ hx))

theorem find?_none_of_forall {α : Type} (p : α → Bool) (l : List α)
    (h : ∀ a ∈ l, p a = false) : l.find? p = none := by
  induction l with
  | nil => rfl
  | cons a t ih =>
    simp only [List.find?_cons, h a (List.mem_cons_self _ _)]
    exact ih (fun x hx => h x (List.mem_cons_of_mem _ hx))

theorem find?_some_mem {α : Type} (p : α → Bool) (l : List α) (b : α)
    (h : l.find? p = some b) : b ∈ l ∧ p b = true := by
  induction l with
  | nil => simp at h
  | cons a t ih =>
    simp only [List.find?_cons] at h
    cases hp : p a with
    | true =>
      rw [hp] at h
      simp only [Option.some.injEq] at h
      subst h
      exact ⟨List.mem_cons_self _ _, hp⟩
    | false =>
      rw [hp] at h
      exact ⟨List.mem_cons_of_mem _ (ih h).1, (ih h).2⟩

/-- C14, as stated, fails for paths that contain a separator of the format. The text
`map[/data:/srv/my data]` renders the binding of `/data` to the host path `/srv/my data`,
and for the destination `/data` the parser returns `/srv/my`, not the host path. The
text `map[/a:b:/h]` renders the binding of the container path `/a:b` to `/h`, and for the
destination `/a`, which is not a container path of the text, the parser returns `b`. -/
theorem legacy_lookup_needs_safe_paths :
    renderVolumes [("/data", "/srv/my data")] = "map[/data:/srv/my data]" ∧
    (getSourceForVolumeFromVolumes (renderVolumes [("/data", "/srv/my data")])
      "/data").toOption = some "/srv/my" ∧
    (getSourceForVolumeFromVolumes (renderVolumes [("/data", "/srv/my data")])
      "/data").toOption ≠ some "/srv/my data" ∧
    renderVolumes [("/a:b", "/h")] = "map[/a:b:/h]" ∧
    (getSourceForVolumeFromVolumes (renderVolumes [("/a:b", "/h")]) "/a").toOption =
      some "b" ∧
    (∀ b ∈ [("/a:b", "/h")], b.1 ≠ "/a") := by
  refine ⟨by decide, by decide, by decide, by decide, by decide, by decide⟩

/-- C14, amended: for every legacy text `map[c1:h1 c2:h2 ... cn:hn]` whose container paths
`ci` and host paths `hi` contain no space, no colon and no line break, and for every
destination `d`: `getSourceForVolumeFromVolumes` returns `hi` for the first binding with
`ci = d` (no earlier binding has the container path `d`); it panics if no `ci` equals
`d`; and whenever it returns a path, that path is the host path of a binding whose
container path is `d`. -/
theorem legacy_lookup (bindings : List (String × String)) (d : String)
    (hsafe : ∀ b ∈ bindings, legacySafe b.1 ∧ legacySafe b.2) :
    (∀ pre b post, bindings = pre ++ b :: post → b.1 = d → (∀ a ∈ pre, a.1 ≠ d) →
      getSourceForVolumeFromVolumes (renderVolumes bindings) d = Except.ok b.2) ∧
    ((∀ b ∈ bindings, b.1 ≠ d) →
      ∃ e, getSourceForVolumeFromVolumes (renderVolumes bindings) d = Except.error e) ∧
    (∀ h, getSourceForVolumeFromVolumes (renderVolumes bindings) d = Except.ok h →
      ∃ b ∈ bindings, b.1 = d ∧ b.2 = h) := by
  have hr := getSourceForVolumeFromVolumes_rendered bindings d hsafe
  refine ⟨?_, ?_, ?_⟩
  · intro pre b post hdec hb hpre
    have hne : bindings ≠ [] := by
      rw [hdec]
      simp
    have hfind : bindings.find? (fun b => decide (b.1 = d)) = some b := by
      rw [hdec]
      exact find?_first_match _ pre b post (by simpa using hb)
        (fun a ha => by simpa using hpre a ha)
    rw [hr, if_neg hne, hfind]
  · intro hnone
    by_cases hne : bindings = []
    · exact ⟨_, by rw [hr, if_pos hne]⟩
    · have hfind : bindings.find? (fun b => decide (b.1 = d)) = none :=
        find?_none_of_forall _ bindings (fun a ha => by simpa using hnone a ha)
      exact ⟨_, by rw [hr, if_neg hne, hfind]⟩
  · intro h hok
    rw [hr] at hok
    by_cases hne : bindings = []
    · rw [if_pos hne] at hok
      cases hok
    · rw [if_neg hne] at hok
      cases hfind : bindings.find? (fun b => decide (b.1 = d)) with
      | none =>
        rw [hfind] at hok
        cases hok
      | some b =>
        rw [hfind] at hok
        simp only [Except.ok.injEq] at hok
        obtain ⟨hmem, hp⟩ := find?_some_mem _ bindings b hfind
        exact ⟨b, hmem, by simpa using hp, hok⟩

theorem legacy_lookup_witness :
    getSourceForVolumeFromVolumes
      (renderVolumes ([("/data", "/srv/data")] ++ ("/logs", "/srv/logs") ::
        [("/logs", "/srv/other")])) "/logs" = Except.ok "/srv/logs" :=
  (legacy_lookup ([("/data", "/srv/data")] ++ ("/logs", "/srv/logs") ::
      [("/logs", "/srv/other")]) "/logs" (by decide)).1
    [("/data", "/srv/data")] ("/logs", "/srv/logs") [("/logs", "/srv/other")] rfl rfl
    (by decide)

/-! ## Volume source resolver: the mounts format and the order of the two paths -/

theorem scanMounts_eq (o volume : String) (mounts : List Mount) :
    scanMounts o volume mounts =
      match mounts.find? (fun m => m.Destination = volume) with
      | some m => Except.ok m.Source
      | none => Except.error (Fatal.cannotFindMount volume o) := by
  induction mounts with
  | nil => rfl
  | cons m t ih =>
    simp only [scanMounts, List.find?_cons]
    by_cases hd : m.Destination = volume
    · simp [hd]
    · simp only [hd, if_false, decide_False]
      exact ih

/-- Go `getSourceForVolumeFromMounts`, by the answer of its query. -/
theorem getSourceForVolumeFromMounts_eq (rt : Runtime) (source volume o : String)
    (err : Bool) (w : World)
    (hq : rt.commandOutput w.trace "docker"
      ["inspect", "--format=\x7b\x7bjson .Mounts\x7d\x7d", source] = (o, err)) :
    getSourceForVolumeFromMounts rt source volume w =
      if err = true then
        (Result.panic (Fatal.cannotGetMounts source volume), w.issued (mountsQuery source))
      else match rt.unmarshalMounts o with
        | none => (Result.panic (Fatal.cannotParseMounts o), w.issued (mountsQuery source))
        | some mounts =>
          liftExcept (scanMounts o volume mounts) (w.issued (mountsQuery source)) := by
  simp only [getSourceForVolumeFromMounts, bind_eq, Prog.bind, commandOutput, hq]
  cases err with
  | true => rfl
  | false =>
    simp only [Bool.false_eq_true, if_false]
    cases rt.unmarshalMounts o <;> rfl

/-- The mounts query is the only invocation of `getSourceForVolumeFromMounts`. -/
theorem mounts_lookup_trace (rt : Runtime) (source volume : String) (w : World) :
    (getSourceForVolumeFromMounts rt source volume w).2.trace =
      w.trace ++ [mountsQuery source] := by
  rw [getSourceForVolumeFromMounts_eq rt source volume _ _ w rfl]
  cases (rt.commandOutput w.trace "docker"
      ["inspect", "--format=\x7b\x7bjson .Mounts\x7d\x7d", source]).2 with
  | true => rfl
  | false =>
    simp only [Bool.false_eq_true, if_false]
    cases rt.unmarshalMounts (rt.commandOutput w.trace "docker"
        ["inspect", "--format=\x7b\x7bjson .Mounts\x7d\x7d", source]).1 with
    | none => rfl
    | some mounts => rw [liftExcept_world]; rfl

/-- C15: `getSourceForVolumeFromMounts` by the answer `(o, err)` of its mounts query. If the
query fails, the call panics. If the answer cannot be decoded, the call panics. If the
answer decodes to a mount list, the call returns the `Source` of the first mount whose
`Destination` equals the requested volume (no earlier mount has that destination), and
panics if no mount has exactly that destination. In every case the mounts query is the
only invocation. -/
theorem mounts_lookup (rt : Runtime) (source volume o : String) (err : Bool) (w : World)
    (hq : rt.commandOutput w.trace "docker"
      ["inspect", "--format=\x7b\x7bjson .Mounts\x7d\x7d", source] = (o, err)) :
    (err = true → (getSourceForVolumeFromMounts rt source volume w).1 =
      Result.panic (Fatal.cannotGetMounts source volume)) ∧
    (err = false → rt.unmarshalMounts o = none →
      (getSourceForVolumeFromMounts rt source volume w).1 =
        Result.panic (Fatal.cannotParseMounts o)) ∧
    (err = false → ∀ mounts, rt.unmarshalMounts o = some mounts →
      (∀ pre m post, mounts = pre ++ m :: post → m.Destination = volume →
        (∀ a ∈ pre, a.Destination ≠ volume) →
        (getSourceForVolumeFromMounts rt source volume w).1 = Result.ok m.Source) ∧
      ((∀ m ∈ mounts, m.Destination ≠ volume) →
        (getSourceForVolumeFromMounts rt source volume w).1 =
          Result.panic (Fatal.cannotFindMount volume o))) ∧
    (getSourceForVolumeFromMounts rt source volume w).2.trace =
      w.trace ++ [mountsQuery source] := by
  have heq := getSourceForVolumeFromMounts_eq rt source volume o err w hq
  refine ⟨?_, ?_, ?_, ?_⟩
  · intro h
    rw [heq, if_pos h]
  · intro h hdec
    rw [heq, if_neg (by simp [h]), hdec]
  · intro h mounts hdec
    rw [heq, if_neg (by simp [h]), hdec]
    simp only [scanMounts_eq]
    constructor
    · intro pre m post hm hd hpre
      have hfind : mounts.find? (fun m => decide (m.Destination = volume)) = some m := by
        rw [hm]
        exact find?_first_match _ pre m post (by simpa using hd)
          (fun a ha => by simpa using hpre a ha)
      rw [hfind]
      rfl
    · intro hnone
      have hfind : mounts.find? (fun m => decide (m.Destination = volume)) = none :=
        find?_none_of_forall _ mounts (fun a ha => by simpa using hnone a ha)
      rw [hfind]
      rfl
  · rw [heq]
    cases err with
    | true => rfl
    | false =>
      simp only [Bool.false_eq_true, if_false]
      cases rt.unmarshalMounts o with
      | none => rfl
      | some mounts => rw [liftExcept_world]; rfl

theorem mounts_lookup_witness :
    (getSourceForVolumeFromMounts prefixMountsRuntime "store" "/data" { }).1 =
      Result.ok "/srv/data" :=
  ((mounts_lookup prefixMountsRuntime "store" "/data" "prefix mounts" false { } rfl).2.2.1
      rfl _ rfl).1
    [{ Source := "/srv/data2", Destination := "/data2", Mode := "", RW := true }]
    { Source := "/srv/data", Destination := "/data", Mode := "", RW := true } [] rfl rfl
    (by decide)

/-- C18: `getSourceForVolume` by the answer `(o, err)` of the legacy volumes query, which
it issues first. If the query succeeds with an output other than the sentinel, the call
returns what `getSourceForVolumeFromVolumes` returns on the output, and the volumes
query is its only invocation. If the query fails or its output is the sentinel, the call
is `getSourceForVolumeFromMounts` after the volumes query, and its invocations are the
volumes query followed by the mounts query. -/
theorem resolver_order (rt : Runtime) (source volume o : String) (err : Bool) (w : World)
    (hq : rt.commandOutput w.trace "docker"
      ["inspect", "--format=\x7b\x7b.Volumes\x7d\x7d", source] = (o, err)) :
    (err = false → o ≠ "<no value>" →
      getSourceForVolume rt source volume w =
        liftExcept (getSourceForVolumeFromVolumes o volume) (w.issued (volumesQuery source)) ∧
      (getSourceForVolume rt source volume w).2.trace = w.trace ++ [volumesQuery source]) ∧
    (err = true ∨ o = "<no value>" →
      getSourceForVolume rt source volume w =
        getSourceForVolumeFromMounts rt source volume (w.issued (volumesQuery source)) ∧
      (getSourceForVolume rt source volume w).2.trace =
        w.trace ++ [volumesQuery source, mountsQuery source]) := by
  constructor
  · intro h ho
    have hg : getSourceForVolume rt source volume w =
        liftExcept (getSourceForVolumeFromVolumes o volume)
          (w.issued (volumesQuery source)) := by
      subst h
      simp only [getSourceForVolume, bind_eq, Prog.bind, commandOutput, hq, ho,
        Bool.false_or, decide_False, Bool.false_eq_true, if_false]
      rfl
    refine ⟨hg, ?_⟩
    rw [hg, liftExcept_world]
    rfl
  · intro h
    have hc : (err || decide (o = "<no value>")) = true := by
      rcases h with h | h <;> simp [h]
    have hg : getSourceForVolume rt source volume w =
        getSourceForVolumeFromMounts rt source volume (w.issued (volumesQuery source)) := by
      simp only [getSourceForVolume, bind_eq, Prog.bind, commandOutput, hq, hc, if_true]
      rfl
    refine ⟨hg, ?_⟩
    rw [hg]
    cases hm : rt.commandOutput (w.issued (volumesQuery source)).trace "docker"
        ["inspect", "--format=\x7b\x7bjson .Mounts\x7d\x7d", source] with
    | mk o2 err2 =>
      rw [(mounts_lookup_trace rt source volume (w.issued (volumesQuery source)))]
      simp [World.issued]

theorem resolver_order_witness :
    (getSourceForVolume legacyRuntime "store" "/logs" { }).1 = Result.ok "/srv/logs" ∧
    (getSourceForVolume legacyRuntime "store" "/logs" { }).2.trace =
      [volumesQuery "store"] ∧
    (getSourceForVolume prefixMountsRuntime "store" "/data" { }).2.trace =
      [volumesQuery "store", mountsQuery "store"] :=
  ⟨congrArg Prod.fst ((resolver_order legacyRuntime "store" "/logs"
      "map[/data:/srv/data /logs:/srv/logs]" false { } rfl).1 rfl (by decide)).1,
   ((resolver_order legacyRuntime "store" "/logs"
      "map[/data:/srv/data /logs:/srv/logs]" false { } rfl).1 rfl (by decide)).2,
   ((resolver_order prefixMountsRuntime "store" "/data" "<no value>" false { } rfl).2
      (Or.inr rfl)).2⟩

/-! ## Runtime inspector: the container id -/

theorem firstId_eq_find? (l : List String) :
    firstId l = l.find? (fun s => s ≠ "<no value>") := by
  induction l with
  | nil => rfl
  | cons a t ih =>
    simp only [firstId, List.find?_cons]
    by_cases ha : a = "<no value>"
    · simp [ha, ih]
    · simp [ha]

/-- Go `getId` with an empty cache, by the answer `(o, err)` of its inspection query: the
error of the query is not looked at. -/
theorem getId_uncached (rt : Runtime) (c : Container) (w : World) (o : String) (err : Bool)
    (hc : c.Id.length = 0)
    (hq : rt.commandOutput w.trace "docker"
      ["inspect", "--format=\x7b\x7b.Id\x7d\x7d", c.Name] = (o, err)) :
    c.getId rt w =
      match (Split o '|').find? (fun s => s ≠ "<no value>") with
      | some id => (Result.ok (id, false, { c with Id := id }), w.issued (idQuery c.Name))
      | none => (Result.ok ("", false, c), w.issued (idQuery c.Name)) := by
  have hid : ¬ 0 < c.Id.length := by omega
  simp only [Container.getId, hid, if_false, bind_eq, Prog.bind, commandOutput, hq, if_true,
    firstId_eq_find?]
  cases (Split o '|').find? (fun s => s ≠ "<no value>") <;> rfl

/-- C17: `Container.getId`. If the cached id is not empty, it is returned, the container is
unchanged and no process is invoked. If the cache is empty and the inspection query
succeeds with output `o`: the result is the first `|`-separated segment of `o` that is
not the sentinel, the same value is stored in the `Id` cache and the error is nil; and if
every segment is the sentinel, the result is the empty id with nil error and the
container, with its empty cache, is unchanged. -/
theorem getId_cached_or_parsed (rt : Runtime) (c : Container) (w : World) :
    (0 < c.Id.length → c.getId rt w = (Result.ok (c.Id, false, c), w)) ∧
    (c.Id.length = 0 → ∀ o,
      rt.commandOutput w.trace "docker"
        ["inspect", "--format=\x7b\x7b.Id\x7d\x7d", c.Name] = (o, false) →
      (∀ pre id post, Split o '|' = pre ++ id :: post → id ≠ "<no value>" →
        (∀ s ∈ pre, s = "<no value>") →
        c.getId rt w =
          (Result.ok (id, false, { c with Id := id }), w.issued (idQuery c.Name))) ∧
      ((∀ s ∈ Split o '|', s = "<no value>") →
        c.getId rt w = (Result.ok ("", false, c), w.issued (idQuery c.Name)))) := by
  constructor
  · intro h
    simp [Container.getId, h, pure_eq]
  · intro hc o hq
    have hg := getId_uncached rt c w o false hc hq
    constructor
    · intro pre id post hs hid hpre
      have hfind : (Split o '|').find? (fun s => decide (s ≠ "<no value>")) = some id := by
        rw [hs]
        exact find?_first_match _ pre id post (by simpa using hid)
          (fun a ha => by simpa using hpre a ha)
      rw [hg, hfind]
    · intro hall
      have hfind : (Split o '|').find? (fun s => decide (s ≠ "<no value>")) = none :=
        find?_none_of_forall _ _ (fun a ha => by simpa using hall a ha)
      rw [hg, hfind]

theorem getId_cached_or_parsed_witness :
    ({ Name := "web", Id := "4f2a" } : Container).getId sentinelRuntime { } =
      (Result.ok ("4f2a", false, { Name := "web", Id := "4f2a" }), { }) ∧
    ({ Name := "web" } : Container).getId sentinelRuntime { } =
      (Result.ok ("4f2a", false, { Name := "web", Id := "4f2a" }),
        ({ } : World).issued (idQuery "web")) ∧
    ({ Name := "none" } : Container).getId sentinelRuntime { } =
      (Result.ok ("", false, { Name := "none" }), ({ } : World).issued (idQuery "none")) :=
  ⟨(getId_cached_or_parsed sentinelRuntime { Name := "web", Id := "4f2a" } { }).1
      (by decide),
   ((getId_cached_or_parsed sentinelRuntime { Name := "web" } { }).2 rfl
      "<no value>|<no value>|4f2a" rfl).1 ["<no value>", "<no value>"] "4f2a" [] (by decide)
      (by decide) (by decide),
   ((getId_cached_or_parsed sentinelRuntime { Name := "none" } { }).2 rfl
      "<no value>|<no value>" rfl).2 (by decide)⟩

/-- C19: `Container.getId` never panics and never returns a non-nil error, whatever the
cache and whatever the outcome of the inspection command. With an empty cache and a
failed inspection command whose (error) output is `o`, the first `|`-separated segment
of `o` that is not the sentinel is returned as the id and written to the `Id` cache. -/
theorem getId_error_is_nil (rt : Runtime) (c : Container) (w : World) :
    (∃ id c1 w1, c.getId rt w = (Result.ok (id, false, c1), w1)) ∧
    (c.Id.length = 0 → ∀ o,
      rt.commandOutput w.trace "docker"
        ["inspect", "--format=\x7b\x7b.Id\x7d\x7d", c.Name] = (o, true) →
      ∀ pre id post, Split o '|' = pre ++ id :: post → id ≠ "<no value>" →
        (∀ s ∈ pre, s = "<no value>") →
        c.getId rt w =
          (Result.ok (id, false, { c with Id := id }), w.issued (idQuery c.Name))) := by
  constructor
  · obtain ⟨id, c1, w1, h, -⟩ := getId_frame rt c w
    exact ⟨id, c1, w1, h⟩
  · intro hc o hq pre id post hs hid hpre
    have hg := getId_uncached rt c w o true hc hq
    have hfind : (Split o '|').find? (fun s => decide (s ≠ "<no value>")) = some id := by
      rw [hs]
      exact find?_first_match _ pre id post (by simpa using hid)
        (fun a ha => by simpa using hpre a ha)
    rw [hg, hfind]

theorem getId_error_is_nil_witness :
    dbContainer.getId emptyRuntime { } =
      (Result.ok ("Error: No such image or container: db", false,
        { dbContainer with Id := "Error: No such image or container: db" }),
        ({ } : World).issued (idQuery "db")) :=
  (getId_error_is_nil emptyRuntime dbContainer { }).2 rfl
    "Error: No such image or container: db" rfl []
    "Error: No such image or container: db" [] (by decide) (by decide) (by decide)

/-! ## Argument assembly: mapped volumes -/

/-- The mapped-volume loop emits one `--volume` pair per value of `mappedVolumeValues`. -/
theorem appendMappedVolumes_values (rt : Runtime) (l : List String) (w : World)
    (mv : List String) (w1 : World)
    (h : appendMappedVolumes rt [] l w = (Result.ok mv, w1)) :
    ∃ values, mappedVolumeValues rt l w = some values ∧
      mv = values.flatMap fun v => ["--volume", v] := by
  induction l generalizing w mv with
  | nil =>
    simp only [appendMappedVolumes, Prog.pure, Prod.mk.injEq, Result.ok.injEq] at h
    exact ⟨[], rfl, by simp [← h.1]⟩
  | cons a l ih =>
    simp only [appendMappedVolumes, mappedVolumeValues] at h ⊢
    generalize Split (rt.ExpandEnv a) ':' = x at h ⊢
    rcases x with _ | ⟨source, _ | ⟨volume, _ | ⟨dest, rest⟩⟩⟩
    · simp [throwFatal] at h
    · simp [throwFatal] at h
    · simp [throwFatal] at h
    · simp only [Prog.bind] at h
      cases hres : getSourceForVolume rt source volume w with
      | mk res w2 =>
        rw [hres] at h
        cases res with
        | panic e => simp at h
        | ok src =>
          simp only at h ⊢
          rw [appendMappedVolumes_eq] at h
          cases hrest : appendMappedVolumes rt [] l w2 with
          | mk res3 w3 =>
            rw [hrest] at h
            cases res3 with
            | panic e => simp at h
            | ok mv2 =>
              simp only [Prod.mk.injEq, Result.ok.injEq] at h
              obtain ⟨values, hv, hmv⟩ := ih w2 mv2 (by rw [hrest, h.2])
              refine ⟨(src ++ ":" ++ dest) :: values, by rw [hres]; simp only [hv], ?_⟩
              rw [← h.1, hmv]
              simp [Join]

/-- The values of `mappedVolumeValues` belong to the entries, index by index: the value
for an entry is what the resolver returns for its source container and volume, a colon
and its destination, and the resolver is called after no mutating invocation. -/
theorem mappedVolumeValues_get (rt : Runtime) (l : List String) (w : World)
    (values : List String) (h : mappedVolumeValues rt l w = some values) :
    values.length = l.length ∧
    ∀ (i : Nat) (entry v : String), l[i]? = some entry → values[i]? = some v →
      ∃ source volume dest more s wi wj,
        Split (rt.ExpandEnv entry) ':' = source :: volume :: dest :: more ∧
        getSourceForVolume rt source volume wi = (Result.ok s, wj) ∧
        mutating wi.trace = mutating w.trace ∧
        v = s ++ ":" ++ dest := by
  induction l generalizing w values with
  | nil =>
    simp only [mappedVolumeValues, Option.some.injEq] at h
    subst h
    exact ⟨rfl, fun i entry v hi => by simp at hi⟩
  | cons a l ih =>
    simp only [mappedVolumeValues] at h
    cases hx : Split (rt.ExpandEnv a) ':' with
    | nil => simp [hx] at h
    | cons source x1 =>
      cases x1 with
      | nil => simp [hx] at h
      | cons volume x2 =>
        cases x2 with
        | nil => simp [hx] at h
        | cons dest more =>
          simp only [hx] at h
          have hmut := getSourceForVolume_mutating rt source volume w
          cases hres : getSourceForVolume rt source volume w with
          | mk res w2 =>
            rw [hres] at h hmut
            cases res with
            | panic e => simp at h
            | ok s =>
              simp only at h hmut
              cases hrest : mappedVolumeValues rt l w2 with
              | none => simp [hrest] at h
              | some vals =>
                simp only [hrest, Option.some.injEq] at h
                subst h
                obtain ⟨hlen, hget⟩ := ih w2 vals hrest
                refine ⟨by simp [hlen], ?_⟩
                intro i entry v hi hv
                cases i with
                | zero =>
                  simp only [List.getElem?_cons_zero, Option.some.injEq] at hi hv
                  subst hi hv
                  exact ⟨source, volume, dest, more, s, w, w2, hx, hres, rfl, rfl⟩
                | succ j =>
                  simp only [List.getElem?_cons_succ] at hi hv
                  obtain ⟨so, vo, de, mo, s2, wi, wj, h1, h2, h3, h4⟩ := hget j entry v hi hv
                  exact ⟨so, vo, de, mo, s2, wi, wj, h1, h2, h3.trans hmut, h4⟩

/-- C16: in a successfully assembled argument list, the mapped-volumes-from entries
contribute one contiguous block of `--volume` pairs, one pair per entry and in entry
order: the value for an entry whose environment expansion splits into source container,
source volume and destination is what `getSourceForVolume` returns for the source
container and volume, followed by a colon and the destination. -/
theorem mapped_volumes_emitted (rt : Runtime) (c : Container) (w : World)
    (args : List String) (w1 : World) (h : c.runArgs rt w = (Result.ok args, w1)) :
    ∃ values, mappedVolumeValues rt c.Run.MappedVolumesFrom w = some values ∧
      values.length = c.Run.MappedVolumesFrom.length ∧
      (values.flatMap fun v => ["--volume", v]) <:+: args ∧
      ∀ (i : Nat) (entry v : String),
        c.Run.MappedVolumesFrom[i]? = some entry → values[i]? = some v →
        ∃ source volume dest more s wi wj,
          Split (rt.ExpandEnv entry) ':' = source :: volume :: dest :: more ∧
          getSourceForVolume rt source volume wi = (Result.ok s, wj) ∧
          mutating wi.trace = mutating w.trace ∧
          v = s ++ ":" ++ dest := by
  rw [runArgs_eq] at h
  cases hmv : appendMappedVolumes rt [] c.Run.MappedVolumesFrom w with
  | mk res w2 =>
    rw [hmv] at h
    cases res with
    | panic e => simp at h
    | ok mv =>
      simp only at h
      obtain ⟨values, hv, hmveq⟩ := appendMappedVolumes_values rt _ w mv w2 hmv
      obtain ⟨hlen, hget⟩ := mappedVolumeValues_get rt _ w values hv
      refine ⟨values, hv, hlen, ?_, hget⟩
      rw [appendCommand_ok _ _ _ _ _ h, ← hmveq]
      exact infix_append_left_of _ (infix_append_left_of _ (infix_append_left_of _
        (infix_append_right_of _ List.infix_rfl)))

theorem mapped_volumes_emitted_witness :
    mappedVolumeValues legacyRuntime mappedExample.Run.MappedVolumesFrom { } =
      some ["/srv/data:/var/data", "/srv/logs:/var/logs"] ∧
    ["--volume", "/srv/data:/var/data", "--volume", "/srv/logs:/var/logs"] <:+:
      ["run", "--volume", "/srv/data:/var/data", "--volume", "/srv/logs:/var/logs",
        "--memory", "1g", "--name", "app", "img"] := by
  obtain ⟨values, hv, -, hin, -⟩ := mapped_volumes_emitted legacyRuntime mappedExample { }
    ["run", "--volume", "/srv/data:/var/data", "--volume", "/srv/logs:/var/logs",
      "--memory", "1g", "--name", "app", "img"] _ rfl
  have hval : mappedVolumeValues legacyRuntime mappedExample.Run.MappedVolumesFrom { } =
      some ["/srv/data:/var/data", "/srv/logs:/var/logs"] := by decide
  rw [hval] at hv
  simp only [Option.some.injEq] at hv
  subst hv
  exact ⟨hval, hin⟩

/-! ## The manual flag -/

/-- Go `getId` does not read the manual flag or the manual-targetting mode. -/
theorem getId_manual (rt : Runtime) (c : Container) (w : World) (m t : Bool) :
    ∃ id c1 w1, c.getId rt w = (Result.ok (id, false, c1), w1) ∧
      ({ c with Manual := m } : Container).getId { rt with isManualTargetting := t } w =
        (Result.ok (id, false, { c1 with Manual := m }), w1) := by
  unfold Container.getId
  by_cases hid : 0 < c.Id.length
  · exact ⟨c.Id, c, w, by simp [hid, pure_eq], by simp [hid, pure_eq]⟩
  · simp only [hid, if_false, bind_eq, Prog.bind, commandOutput, if_true]
    cases hf : firstId (Split (rt.commandOutput w.trace "docker"
        ["inspect", "--format=\x7b\x7b.Id\x7d\x7d", c.Name]).1 '|') with
    | none =>
      exact ⟨"", c, w.issued (idQuery c.Name), by simp [pure_eq, World.issued, idQuery],
        by simp [pure_eq, World.issued, idQuery]⟩
    | some pid =>
      exact ⟨pid, { c with Id := pid }, w.issued (idQuery c.Name),
        by simp [pure_eq, World.issued, idQuery], by simp [pure_eq, World.issued, idQuery]⟩

/-- Go `running` does not read the manual flag or the manual-targetting mode. -/
theorem running_manual (rt : Runtime) (c : Container) (w : World) (m t : Bool) :
    ∃ b c1 w1, c.running rt w = (Result.ok (b, c1), w1) ∧
      ({ c with Manual := m } : Container).running { rt with isManualTargetting := t } w =
        (Result.ok (b, { c1 with Manual := m }), w1) := by
  obtain ⟨id, c1, w1, hg, hg2⟩ := getId_manual rt c w m t
  unfold Container.running
  simp only [bind_eq, Prog.bind, hg, hg2, Bool.false_or]
  by_cases hlen : id.length = 0
  · exact ⟨false, c1, w1, by simp [hlen, pure_eq], by simp [hlen, pure_eq]⟩
  · simp only [hlen, decide_False, Bool.false_eq_true, if_false, bind_eq, Prog.bind, pure_eq,
      pipedCommandOutput]
    cases hp : rt.pipedCommandOutput w1.trace
        [["docker", "ps", "--quiet", "--no-trunc"], ["grep", "-wF", id]] with
    | none =>
      exact ⟨false, c1, w1.issued (Invocation.pipedCommandOutput
          [["docker", "ps", "--quiet", "--no-trunc"], ["grep", "-wF", id]]),
        by simp [pure_eq, World.issued], by simp [pure_eq, World.issued]⟩
    | some result =>
      exact ⟨decide (0 < result.length), c1, w1.issued (Invocation.pipedCommandOutput
          [["docker", "ps", "--quiet", "--no-trunc"], ["grep", "-wF", id]]),
        by simp [pure_eq, World.issued], by simp [pure_eq, World.issued]⟩

/-- Go `exists` does not read the manual flag or the manual-targetting mode. -/
theorem exists_manual (rt : Runtime) (c : Container) (w : World) (m t : Bool) :
    ∃ b c1 w1, c.exists rt w = (Result.ok (b, c1), w1) ∧
      ({ c with Manual := m } : Container).exists { rt with isManualTargetting := t } w =
        (Result.ok (b, { c1 with Manual := m }), w1) := by
  obtain ⟨id, c1, w1, hg, hg2⟩ := getId_manual rt c w m t
  unfold Container.exists
  simp only [bind_eq, Prog.bind, hg, hg2, Bool.false_or]
  by_cases hlen : id.length = 0
  · exact ⟨false, c1, w1, by simp [hlen, pure_eq], by simp [hlen, pure_eq]⟩
  · simp only [hlen, decide_False, Bool.false_eq_true, if_false, bind_eq, Prog.bind, pure_eq,
      pipedCommandOutput]
    cases hp : rt.pipedCommandOutput w1.trace
        [["docker", "ps", "--quiet", "--all", "--no-trunc"], ["grep", "-wF", id]] with
    | none =>
      exact ⟨false, c1, w1.issued (Invocation.pipedCommandOutput
          [["docker", "ps", "--quiet", "--all", "--no-trunc"], ["grep", "-wF", id]]),
        by simp [pure_eq, World.issued], by simp [pure_eq, World.issued]⟩
    | some result =>
      exact ⟨decide (0 < result.length), c1, w1.issued (Invocation.pipedCommandOutput
          [["docker", "ps", "--quiet", "--all", "--no-trunc"], ["grep", "-wF", id]]),
        by simp [pure_eq, World.issued], by simp [pure_eq, World.issued]⟩

theorem executeCommand_manual (rt : Runtime) (t : Bool) (name : String) (args : List String) :
    executeCommand { rt with isManualTargetting := t } name args =
      executeCommand rt name args := rfl

/-- C20: the manual flag and the manual-targetting mode do not affect `Container.stop`,
`Container.kill`, `Container.rm`, `Container.provision` and `Container.pull`: for every
runtime, container and world, setting the flag to any value `m` and the mode to any
value `t` leaves the outcome of each of these calls unchanged, with the same invocations
in the same order, the same console output and the same result. -/
theorem manual_flag_irrelevant (rt : Runtime) (c : Container) (w : World) (m t : Bool) :
    ({ c with Manual := m } : Container).stop { rt with isManualTargetting := t } w =
      c.stop rt w ∧
    ({ c with Manual := m } : Container).kill { rt with isManualTargetting := t } w =
      c.kill rt w ∧
    ({ c with Manual := m } : Container).rm { rt with isManualTargetting := t } w =
      c.rm rt w ∧
    (∀ force, ({ c with Manual := m } : Container).provision
      { rt with isManualTargetting := t } force w = c.provision rt force w) ∧
    (∀ force, ({ c with Manual := m } : Container).pull
      { rt with isManualTargetting := t } force w = c.pull rt force w) := by
  refine ⟨?_, ?_, ?_, fun _ => rfl, fun _ => rfl⟩
  · obtain ⟨r, c1, w1, hr, hr2⟩ := running_manual rt c w m t
    cases r <;>
      simp [Container.stop, bind_eq, Prog.bind, hr, hr2, pure_eq, say, executeCommand_manual]
  · obtain ⟨r, c1, w1, hr, hr2⟩ := running_manual rt c w m t
    cases r <;>
      simp [Container.kill, bind_eq, Prog.bind, hr, hr2, pure_eq, say, executeCommand_manual]
  · obtain ⟨ex, c1, w1, hex, hex2⟩ := exists_manual rt c w m t
    cases ex with
    | false => simp [Container.rm, bind_eq, Prog.bind, hex, hex2, pure_eq]
    | true =>
      obtain ⟨r, c2, w2, hr, hr2⟩ := running_manual rt c1 w1 m t
      cases r <;>
        simp [Container.rm, bind_eq, Prog.bind, hex, hex2, hr, hr2, pure_eq, say,
          executeCommand_manual]

end Crane
